import Mathlib

/-!
# path_optimizer: the segmentation and output stages of `PathOptimizer`

A shallow embedding of `src/src/path_optimizer/path_optimizer.cpp` and of the
angle normalisation of `src/include/path_optimizer/path_optimizer.hpp`.

Modelling conventions.

* A finite C++ `double` is the rational number it denotes (`ℚ`), and `M_PI` is the
  rational value of the `<cmath>` constant. The operations that decide whether
  the recursion of `constraintAngle` and the search loop of
  `segmentSmoothedPath` end, which positions the loop visits and where the
  thresholds lie are rounded to the nearest double, ties to even (`fl`): the
  heading difference, the addition and subtraction of `2 * M_PI`, the
  subtraction of the search step, the decimal literals and the two thresholds
  in degrees. The exponent range of `fl` is not bounded above: a result beyond
  the largest finite double stays the rounded number instead of becoming an
  infinity (in the functions modelled here both make `constraintAngle` recurse
  forever). The sums of squares under a square root, the helpers of `tools.hpp`,
  modelled from the spec, and the arc lengths of the output step of
  `optimizePath` are exact.
* The C math library (`sqrt`, `cos`, `sin`), the spline primitive, the reference
  smoother, the map queries, the collision checker and the solver factory are
  not part of the two source files; they are fields of `Env`, so every theorem
  holds for all of them.
* The object state of `PathOptimizer` is passed explicitly: an operation takes
  the object and the caller's `final_path` and returns the new ones.
* Reading `back()` of an empty vector, which C++ leaves undefined, is the
  outcome `Fault.backOfEmpty`. The recursion of `constraintAngle`, the search
  loop of `segmentSmoothedPath` and the densification loop take a fuel argument,
  and `Fault.outOfFuel` is the outcome of a run that needs more iterations; a
  run that has this outcome for every fuel never returns.
-/

namespace PathOptimizationNS

/-! ## Data model -/

/-- A pose of the path: position, heading `z`, curvature `k`, arc length `s`
(`State tmp_state{x, y, heading, curvature, s}` in `optimizePath`). -/
structure State where
  x : ℚ
  y : ℚ
  z : ℚ
  k : ℚ
  s : ℚ
deriving DecidableEq

/-- Modelled from the spec: the class `VehicleState` (its header is not among the
sources) is `{start, end, initial_lateral_offset, initial_heading_error}`,
built as `VehicleState{start_state, end_state, 0, 0}`. -/
structure VehicleState where
  start_state : State
  end_state : State
  initial_offset : ℚ
  initial_heading_error : ℚ

/-- Modelled from the spec: `VehicleState::setInitError` stores the two error terms. -/
def VehicleState.setInitError (v : VehicleState) (offset heading_error : ℚ) : VehicleState :=
  { v with initial_offset := offset, initial_heading_error := heading_error }

/-- Modelled from the spec: the class `ReferencePath` (its header is not among the
sources) owns two interpolants `x(s)`, `y(s)`, the usable length, and the
discretised samples with their clearance bounds. -/
structure ReferencePath where
  x_s : ℚ → ℚ
  y_s : ℚ → ℚ
  max_s : ℚ
  samples : List State
  bounds : List (ℚ × ℚ)

/-- Modelled from the spec: `ReferencePath::getLength`. -/
def ReferencePath.getLength (r : ReferencePath) : ℚ := r.max_s

/-- Modelled from the spec: `ReferencePath::setLength`. -/
def ReferencePath.setLength (r : ReferencePath) (s : ℚ) : ReferencePath :=
  { r with max_s := s }

/-- Modelled from the spec: `ReferencePath::getXS(s)`, the x interpolant at `s`. -/
def ReferencePath.getXS (r : ReferencePath) (s : ℚ) : ℚ := r.x_s s

/-- Modelled from the spec: `ReferencePath::getYS(s)`, the y interpolant at `s`. -/
def ReferencePath.getYS (r : ReferencePath) (s : ℚ) : ℚ := r.y_s s

/-- The value of the `<cmath>` constant `M_PI` (the double nearest to pi), as an
exact rational: `884279719003555 / 2^48`. -/
def M_PI : ℚ := 884279719003555 / 281474976710656

/-- What a `solve` of the QP solver adapter does with the caller's path: it
reports success or failure and leaves its samples in the path. -/
abbrev OsqpSolver := List State → Bool × List State

/-- The flags and the collaborators of one `PathOptimizer` that are not defined in
the two source files. -/
structure Env where
  /-- The flag `FLAGS_enable_raw_output`. -/
  enable_raw_output : Bool
  /-- The flag `FLAGS_enable_collision_check`. -/
  enable_collision_check : Bool
  /-- The flag `FLAGS_enable_exact_position`. -/
  enable_exact_position : Bool
  /-- The flag `FLAGS_output_spacing`. -/
  output_spacing : ℚ
  /-- The functions `sqrt`, `cos`, `sin` of the C math library. -/
  sqrt : ℚ → ℚ
  cos : ℚ → ℚ
  sin : ℚ → ℚ
  /-- The helper `getHeading(x_s, y_s, s)` of `tools.hpp`. -/
  getHeading : (ℚ → ℚ) → (ℚ → ℚ) → ℚ → ℚ
  /-- The helper `getCurvature(x_s, y_s, s)` of `tools.hpp`. -/
  getCurvature : (ℚ → ℚ) → (ℚ → ℚ) → ℚ → ℚ
  /-- The primitive `tk::spline::set_points(xs, ys)`, as the interpolant it builds. -/
  spline : List ℚ → List ℚ → ℚ → ℚ
  /-- The call `TensionSmoother(points, start, map).solve(reference_path_, &smoothed_path_)`
  followed by `display()`: success, the new reference path, the new smoothed path
  and the search diagnostics. -/
  smoother : List State → State → ReferencePath → List State →
    Bool × ReferencePath × List State × List (List ℚ)
  /-- The methods of `ReferencePath` that the segmenter calls. -/
  clear : ReferencePath → ReferencePath
  setReference : ReferencePath → List State → ReferencePath
  buildReferenceFromSpline : ReferencePath → ℚ → ℚ → ReferencePath
  updateBounds : ReferencePath → ReferencePath
  updateLimits : ReferencePath → ReferencePath
  getSize : ReferencePath → ℕ
  /-- The call `SolverFactory::create(reference_path, vehicle_state, size)`; `none` is the
  null pointer. -/
  create : ReferencePath → VehicleState → ℕ → Option OsqpSolver
  /-- The call `collision_checker_->isSingleStateCollisionFreeImproved(state)`. -/
  isSingleStateCollisionFreeImproved : State → Bool

/-- The members of a `PathOptimizer` that `solve` reads and writes. -/
structure PathOptimizer where
  reference_path_ : ReferencePath
  vehicle_state_ : VehicleState
  smoothed_path_ : List State
  reference_searching_display_ : List (List ℚ)
  size_ : ℕ

/-- The ways a run fails to produce a result. -/
inductive Fault where
  /-- The program reads `back()` of an empty vector. -/
  | backOfEmpty
  /-- A loop or a recursion needs more iterations than the fuel allows. -/
  | outOfFuel
deriving DecidableEq

/-! ## Double arithmetic -/

/-- The exponent of the unit in the last place of the doubles around `q`: the binade of
`q` holds 53 significant bits, and below `2 ^ (-1022)` the doubles are subnormal. -/
def ulpExp (q : ℚ) : ℤ := max (Int.log 2 |q|) (-1022) - 52

/-- The integer nearest to `r`, the even one of the two when `r` lies half way. -/
def roundHalfEven (r : ℚ) : ℤ :=
  if r - ⌊r⌋ < 1 / 2 then ⌊r⌋
  else if 1 / 2 < r - ⌊r⌋ then ⌊r⌋ + 1
  else if ⌊r⌋ % 2 = 0 then ⌊r⌋ else ⌊r⌋ + 1

/-- The double nearest to `q`, ties to even: the result of a double operation whose
exact result is `q`, and the value of a decimal literal `q`. -/
def fl (q : ℚ) : ℚ := roundHalfEven (q / 2 ^ ulpExp q) * 2 ^ ulpExp q

/-- The specification of a double: a significand below `2 ^ 53` in magnitude times a
power of two not below the smallest subnormal. -/
def IsDouble (d : ℚ) : Prop := ∃ m j : ℤ, |m| < 2 ^ 53 ∧ -1074 ≤ j ∧ d = m * 2 ^ j

/-! ## Angle normalisation (`path_optimizer.hpp`, lines 116-127) -/

/-- The member `constraintAngle`: subtract or add `2 * M_PI` until the angle is
neither above `M_PI` nor below `-M_PI`; the difference and the sum are rounded, the
product `2 * M_PI` is exact. Every level of the recursion takes one unit of fuel. -/
def constraintAngle : ℕ → ℚ → Except Fault ℚ
  | 0, _ => .error Fault.outOfFuel
  | fuel + 1, angle =>
    if angle > M_PI then
      constraintAngle fuel (fl (angle - 2 * M_PI))
    else if angle < -M_PI then
      constraintAngle fuel (fl (angle + 2 * M_PI))
    else
      .ok angle

/-! ## Helpers of `tools.hpp` -/

/-- Modelled from the spec: `distance(a, b)` of `tools.hpp` (not among the sources) is the
Euclidean distance between the two positions. -/
def distance (env : Env) (a b : State) : ℚ :=
  env.sqrt ((a.x - b.x) ^ 2 + (a.y - b.y) ^ 2)

/-- Modelled from the spec: `global2Local(reference, target)` of `tools.hpp` (not among the
sources) is the standard rigid transform of `target` into the frame of the pose
`reference`. -/
def global2Local (env : Env) (reference target : State) : State :=
  let dx := target.x - reference.x
  let dy := target.y - reference.y
  { x := dx * env.cos reference.z + dy * env.sin reference.z
    y := -dx * env.sin reference.z + dy * env.cos reference.z
    z := target.z - reference.z
    k := target.k
    s := target.s }

/-! ## `PathOptimizer::segmentSmoothedPath` (`path_optimizer.cpp`, lines 120-185) -/

/-- Lines 127-130: the pose of the first sample of the reference curve. -/
def firstPoint (env : Env) (r : ReferencePath) : State :=
  { x := r.getXS 0
    y := r.getYS 0
    z := env.getHeading r.x_s r.y_s 0
    k := 0
    s := 0 }

/-- Lines 131-135: the initial lateral offset of the vehicle start pose. -/
def initialOffset (env : Env) (start_state first_point : State) : ℚ :=
  let first_point_local := global2Local env start_state first_point
  let min_distance := distance env start_state first_point
  if first_point_local.y < 0 then min_distance else -min_distance

/-- Line 136: the initial heading error. -/
def initialHeadingError (fuel : ℕ) (start_state first_point : State) : Except Fault ℚ :=
  constraintAngle fuel (fl (start_state.z - first_point.z))

/-- Lines 126-137: the vehicle state after `setInitError`. -/
def initErrors (env : Env) (fuel : ℕ) (po : PathOptimizer) : Except Fault VehicleState :=
  let first_point := firstPoint env po.reference_path_
  let initial_offset := initialOffset env po.vehicle_state_.start_state first_point
  match initialHeadingError fuel po.vehicle_state_.start_state first_point with
  | .error e => .error e
  | .ok initial_heading_error =>
    .ok (po.vehicle_state_.setInitError initial_offset initial_heading_error)

/-- The double that the expression `75 * M_PI / 180` of line 139 evaluates to: the
rounded quotient by 180 of the rounded product, `fl (fl (75 * M_PI) / 180)`
(theorem `heading_error_limit_eq`). -/
def heading_error_limit : ℚ := 5895198126690367 / 4503599627370496

/-- The double that the expression `20 * M_PI / 180` of line 178 evaluates to: the
rounded quotient by 180 of the rounded product, `fl (fl (20 * M_PI) / 180)`
(theorem `small_heading_error_eq`). -/
def small_heading_error : ℚ := 6288211335136391 / 18014398509481984

/-- The double that the literal `0.3` denotes, `fl (3 / 10)` (theorem `double_0_3_eq`). -/
def double_0_3 : ℚ := 5404319552844595 / 18014398509481984

/-- The double that the literal `0.1` denotes, `fl (1 / 10)` (theorem `double_0_1_eq`). -/
def double_0_1 : ℚ := 3602879701896397 / 36028797018963968

/-- The double that the literal `0.001` denotes, `fl (1 / 1000)` (theorem
`double_0_001_eq`). -/
def double_0_001 : ℚ := 1152921504606847 / 1152921504606846976

/-- Lines 144-146: the distance between the goal and the end point of the curve; the sum
of squares under the root is exact. -/
def endDistance (env : Env) (r : ReferencePath) (goal : State) : ℚ :=
  env.sqrt ((goal.x - r.getXS r.getLength) ^ 2 + (goal.y - r.getYS r.getLength) ^ 2)

/-- Lines 150-155: the step of the backward search, the literal `0.1` or `0.3`. -/
def search_delta_s (env : Env) : ℚ :=
  if env.enable_exact_position then double_0_1 else double_0_3

/-- Lines 160-162: the distance between the goal and the curve point at `tmp_s`; the sum
of squares under the root is exact. -/
def tmpDis (env : Env) (r : ReferencePath) (goal : State) (tmp_s : ℚ) : ℚ :=
  env.sqrt ((r.getXS tmp_s - goal.x) ^ 2 + (r.getYS tmp_s - goal.y) ^ 2)

/-- Lines 159-168: the loop `while (tmp_s > 0)`, from the values of `tmp_s`,
`min_dis_to_goal` and `min_dis_s` at its head to their values `(min_dis_to_goal,
min_dis_s)` at its exit. Every test of the loop condition takes one unit of fuel. -/
def goalSearchLoop (env : Env) (r : ReferencePath) (goal : State) :
    ℕ → ℚ → ℚ → ℚ → Except Fault (ℚ × ℚ)
  | 0, _, _, _ => .error Fault.outOfFuel
  | fuel + 1, tmp_s, min_dis_to_goal, min_dis_s =>
    if tmp_s > 0 then
      let tmp_dis := tmpDis env r goal tmp_s
      if tmp_dis < min_dis_to_goal then
        goalSearchLoop env r goal fuel (fl (tmp_s - search_delta_s env)) tmp_dis tmp_s
      else
        goalSearchLoop env r goal fuel (fl (tmp_s - search_delta_s env))
          min_dis_to_goal min_dis_s
    else
      .ok (min_dis_to_goal, min_dis_s)

/-- Lines 144-170: the usable length of the curve after the search for the point
closest to the goal. -/
def trimmedLength (env : Env) (fuel : ℕ) (r : ReferencePath) (goal : State) :
    Except Fault ℚ :=
  let end_distance := endDistance env r goal
  if end_distance > double_0_001 then
    match goalSearchLoop env r goal fuel (fl (r.getLength - search_delta_s env))
        end_distance r.getLength with
    | .error e => .error e
    | .ok found => .ok found.2
  else
    .ok r.getLength

/-- Lines 172-178: the two steps `(delta_s_smaller, delta_s_larger)` handed to
`buildReferenceFromSpline`. -/
def segmentSteps (env : Env) (initial_heading_error : ℚ) : ℚ × ℚ :=
  let delta_s_smaller : ℚ := double_0_3
  let delta_s_larger : ℚ := if env.enable_raw_output then env.output_spacing else 1
  if |initial_heading_error| < small_heading_error then
    (delta_s_larger, delta_s_larger)
  else
    (delta_s_smaller, delta_s_larger)

/-- The member `segmentSmoothedPath`: its return value and the object after the call. -/
def segmentSmoothedPath (env : Env) (fuel : ℕ) (po : PathOptimizer) :
    Except Fault (Bool × PathOptimizer) :=
  if po.reference_path_.getLength = 0 then
    .ok (false, po)
  else
    match initErrors env fuel po with
    | .error e => .error e
    | .ok vehicle_state =>
      if |vehicle_state.initial_heading_error| > heading_error_limit then
        .ok (false, { po with vehicle_state_ := vehicle_state })
      else
        match trimmedLength env fuel po.reference_path_ vehicle_state.end_state with
        | .error e => .error e
        | .ok length =>
          let trimmed := po.reference_path_.setLength length
          let steps := segmentSteps env vehicle_state.initial_heading_error
          let reference_path :=
            env.updateLimits (env.updateBounds
              (env.buildReferenceFromSpline trimmed steps.1 steps.2))
          .ok (true, { po with
            reference_path_ := reference_path
            vehicle_state_ := vehicle_state
            size_ := env.getSize reference_path })

/-! ## `PathOptimizer::optimizePath` (`path_optimizer.cpp`, lines 187-240) -/

/-- Lines 200-211: the loop of the raw output mode over the remaining states `rest`,
with the states already visited `done` (their arc length set) and the running arc
length `s`. -/
def rawLoop (env : Env) (done : List State) (s : ℚ) :
    List State → Except Fault (Bool × List State)
  | [] => .ok (true, done)
  | p :: rest =>
    let s' := match done.getLast? with
      | none => s
      | some q => s + distance env q p
    let p' := { p with s := s' }
    if env.enable_collision_check && !env.isSingleStateCollisionFreeImproved p' then
      match done.getLast? with
      | none => .error Fault.backOfEmpty
      | some b => .ok (decide (b.s ≥ 20), done)
    else
      rawLoop env (done ++ [p']) s' rest

/-- Lines 225-230: the state that the densified output mode builds for the index `i`. -/
def densifiedState (env : Env) (x_s y_s : ℚ → ℚ) (delta_s : ℚ) (i : ℕ) : State :=
  let tmp_s := (i : ℚ) * delta_s
  { x := x_s tmp_s
    y := y_s tmp_s
    z := env.getHeading x_s y_s tmp_s
    k := env.getCurvature x_s y_s tmp_s
    s := tmp_s }

/-- Lines 224-236: the loop of the densified output mode from the index `i`, with the
states already emitted `out`; `back` is `result_s.back()`. -/
def densifyLoop (env : Env) (x_s y_s : ℚ → ℚ) (back delta_s : ℚ) :
    ℕ → ℕ → List State → Except Fault (Bool × List State)
  | 0, _, _ => .error Fault.outOfFuel
  | fuel + 1, i, out =>
    if (i : ℚ) * delta_s ≤ back then
      let tmp_state := densifiedState env x_s y_s delta_s i
      if env.enable_collision_check && !env.isSingleStateCollisionFreeImproved tmp_state then
        match out.getLast? with
        | none => .error Fault.backOfEmpty
        | some b => .ok (decide (b.s ≥ 20), out)
      else
        densifyLoop env x_s y_s back delta_s fuel (i + 1) (out ++ [tmp_state])
    else
      .ok (true, out)

/-- Lines 196-239: the output step, from the path that the solver stage left. -/
def buildOutput (env : Env) (fuel : ℕ) (final_path : List State) :
    Except Fault (Bool × List State) :=
  if env.enable_raw_output then
    rawLoop env [] 0 final_path
  else
    let result_x := final_path.map (fun p => p.x)
    let result_y := final_path.map (fun p => p.y)
    let result_s := final_path.map (fun p => p.s)
    let x_s := env.spline result_s result_x
    let y_s := env.spline result_s result_y
    match result_s.getLast? with
    | none => .error Fault.backOfEmpty
    | some back => densifyLoop env x_s y_s back env.output_spacing fuel 0 []

/-- The member `optimizePath`: its return value and the caller's path after the call. -/
def optimizePath (env : Env) (fuel : ℕ) (po : PathOptimizer) (final_path : List State) :
    Except Fault (Bool × List State) :=
  match env.create po.reference_path_ po.vehicle_state_ po.size_ with
  | some solver =>
    let qp := solver final_path
    if !qp.1 then .ok (false, qp.2) else buildOutput env fuel qp.2
  | none => buildOutput env fuel final_path

/-! ## `PathOptimizer::solve` and `PathOptimizer::solveWithoutSmoothing` -/

/-- The member `solve` (lines 41-86): its return value, the object and the caller's
path after the call. -/
def solve (env : Env) (fuel : ℕ) (po : PathOptimizer) (reference_points final_path : List State) :
    Except Fault (Bool × PathOptimizer × List State) :=
  if reference_points.isEmpty then
    .ok (false, po, final_path)
  else
    let cleared := env.clear po.reference_path_
    let sm := env.smoother reference_points po.vehicle_state_.start_state cleared po.smoothed_path_
    let po1 : PathOptimizer := { po with
      reference_path_ := sm.2.1
      smoothed_path_ := sm.2.2.1
      reference_searching_display_ := sm.2.2.2 }
    if !sm.1 then
      .ok (false, po1, final_path)
    else
      match segmentSmoothedPath env fuel po1 with
      | .error e => .error e
      | .ok seg =>
        if !seg.1 then
          .ok (false, seg.2, final_path)
        else
          match optimizePath env fuel seg.2 final_path with
          | .ok r => .ok (r.1, seg.2, r.2)
          | .error e => .error e

/-- The member `solveWithoutSmoothing` (lines 88-118): its return value, the object and
the caller's path after the call. -/
def solveWithoutSmoothing (env : Env) (fuel : ℕ) (po : PathOptimizer)
    (reference_points final_path : List State) :
    Except Fault (Bool × PathOptimizer × List State) :=
  if reference_points.isEmpty then
    .ok (false, po, final_path)
  else
    let vehicle_state := po.vehicle_state_.setInitError 0 0
    let reference_path := env.updateLimits (env.updateBounds
      (env.setReference (env.clear po.reference_path_) reference_points))
    let po1 : PathOptimizer := { po with
      reference_path_ := reference_path
      vehicle_state_ := vehicle_state
      size_ := env.getSize reference_path }
    match optimizePath env fuel po1 final_path with
    | .ok r => .ok (r.1, po1, r.2)
    | .error e => .error e

/-! ## The output states, as the specification describes them -/

/-- Whether `optimizePath` finds a collision at the output state `p`: collision checking
is enabled and the state is not collision free (lines 204 and 231). -/
def collides (env : Env) (p : State) : Bool :=
  env.enable_collision_check && !env.isSingleStateCollisionFreeImproved p

/-- The specification of the raw arc lengths after the output state `prev`: every state
gets the arc length of the state before it plus the Euclidean distance between the
two. -/
def arcLengthFrom (env : Env) (prev : State) : List State → List State
  | [] => []
  | p :: rest =>
    { p with s := prev.s + distance env prev p } ::
      arcLengthFrom env { p with s := prev.s + distance env prev p } rest

/-- The specification of the raw output states: the optimized samples, the first with
the arc length 0 and every later one with the accumulated Euclidean distance. -/
def withArcLength (env : Env) : List State → List State
  | [] => []
  | p :: rest => { p with s := 0 } :: arcLengthFrom env { p with s := 0 } rest

/-- The specification of the output sequence: `l` is an initial run of the output states
that `optimizePath` generates from the optimized path. In raw mode these are the
optimized samples with their arc lengths; in densified mode the state number `i` is
the resampled state at `i * output_spacing`, generated while that arc length is at
most the last arc length of the optimized path. -/
def IsOutputPrefix (env : Env) (optimized l : List State) : Prop :=
  if env.enable_raw_output then
    l <+: withArcLength env optimized
  else
    ∃ back, (optimized.map (fun p => p.s)).getLast? = some back ∧
      (∀ i : ℕ, i < l.length → (i : ℚ) * env.output_spacing ≤ back) ∧
      l = (List.range l.length).map (densifiedState env
        (env.spline (optimized.map (fun p => p.s)) (optimized.map (fun p => p.x)))
        (env.spline (optimized.map (fun p => p.s)) (optimized.map (fun p => p.y)))
        env.output_spacing)

/-- The specification of the positions that the backward search of lines 156-168 visits
on a curve of length `L`: the position number 0 is `L`, and every later one is the
position before it minus the step, rounded. The search visits them while they are
positive. -/
def searchCandidate (env : Env) (L : ℚ) : ℕ → ℚ
  | 0 => L
  | k + 1 => fl (searchCandidate env L k - search_delta_s env)

/-! ## Concrete inputs that exercise the theorems -/

/-- A straight reference curve along the x axis, of length 50. -/
def straightPath : ReferencePath :=
  { x_s := fun s => s
    y_s := fun _ => 0
    max_s := 50
    samples := []
    bounds := [] }

/-- An environment around the straight curve: raw output at spacing 3/10 with collision
checking, a checker that finds every state free, a solver that succeeds and leaves
the path as it is, the square root that is exact on squares, and the small-angle
values of cosine and sine (exact at heading 0). -/
def straightEnv : Env :=
  { enable_raw_output := true
    enable_collision_check := true
    enable_exact_position := false
    output_spacing := 3 / 10
    sqrt := Rat.sqrt
    cos := fun z => 1 - z ^ 2 / 2
    sin := fun z => z
    getHeading := fun _ _ _ => 0
    getCurvature := fun _ _ _ => 0
    spline := fun _ _ s => s
    smoother := fun _ _ _ smoothed => (true, straightPath, smoothed, [])
    clear := fun r => { r with samples := [], bounds := [] }
    setReference := fun r pts => { r with samples := pts }
    buildReferenceFromSpline := fun r _ _ => r
    updateBounds := fun r => r
    updateLimits := fun r => r
    getSize := fun r => r.samples.length
    create := fun _ _ _ => some (fun path => (true, path))
    isSingleStateCollisionFreeImproved := fun _ => true }

/-- A state at the position `(x, y)` with heading `z`. -/
def pose (x y z : ℚ) : State := { x := x, y := y, z := z, k := 0, s := 0 }

/-- A state at the position `(x, y)` with heading `z` and arc length `s`. -/
def stateAt (x y z s : ℚ) : State := { x := x, y := y, z := z, k := 0, s := s }

/-- An optimizer on the straight curve whose vehicle starts at `start_state` and is to
reach the end of the curve. -/
def straightOptimizer (start_state : State) : PathOptimizer :=
  { reference_path_ := straightPath
    vehicle_state_ :=
      { start_state := start_state
        end_state := pose 50 0 0
        initial_offset := 0
        initial_heading_error := 0 }
    smoothed_path_ := []
    reference_searching_display_ := []
    size_ := 0 }

/-- An optimizer on the straight curve whose goal `(497/10, 0)` lies on the curve, 3/10
before its end. -/
def shortGoalOptimizer : PathOptimizer :=
  { reference_path_ := straightPath
    vehicle_state_ :=
      { start_state := pose 0 0 0
        end_state := pose (497 / 10) 0 0
        initial_offset := 0
        initial_heading_error := 0 }
    smoothed_path_ := []
    reference_searching_display_ := []
    size_ := 0 }

/-- A straight reference curve along the x axis, of length 3. -/
def shortPath : ReferencePath :=
  { x_s := fun s => s
    y_s := fun _ => 0
    max_s := 3
    samples := []
    bounds := [] }

/-- An optimizer on the curve of length 3 whose goal is the start `(0, 0)` of the curve. -/
def shortOptimizer : PathOptimizer :=
  { reference_path_ := shortPath
    vehicle_state_ :=
      { start_state := pose 0 0 0
        end_state := pose 0 0 0
        initial_offset := 0
        initial_heading_error := 0 }
    smoothed_path_ := []
    reference_searching_display_ := []
    size_ := 0 }

/-- The straight-curve environment with a solver factory that returns no solver. -/
def noSolverEnv : Env :=
  { straightEnv with create := fun _ _ _ => none }

/-- The straight-curve environment with raw output at the spacing `0.1`. -/
def fineRawEnv : Env :=
  { straightEnv with output_spacing := double_0_1 }

/-- The straight-curve environment with a checker that reports a collision for every
state at `x >= 25` (raw output). -/
def wallRawEnv : Env :=
  { straightEnv with isSingleStateCollisionFreeImproved := fun p => decide (p.x < 25) }

/-- The straight-curve environment with a checker that reports a collision for every
state, densified output at the spacing 10. -/
def blockedDenseEnv : Env :=
  { straightEnv with
    enable_raw_output := false
    output_spacing := 10
    isSingleStateCollisionFreeImproved := fun _ => false }

/-! ## Rounding to the nearest double -/

theorem roundHalfEven_nearest (r : ℚ) (z : ℤ) :
    |(roundHalfEven r : ℚ) - r| ≤ |(z : ℚ) - r| := by
  have hf1 : (⌊r⌋ : ℚ) ≤ r := Int.floor_le r
  have hf2 : r < ⌊r⌋ + 1 := Int.lt_floor_add_one r
  have hz : (z : ℚ) ≤ ⌊r⌋ ∨ (⌊r⌋ : ℚ) + 1 ≤ z := by
    rcases le_or_lt z ⌊r⌋ with h | h
    · left; exact_mod_cast h
    · right; exact_mod_cast h
  unfold roundHalfEven
  split_ifs with h1 h2 h3
  · rw [abs_of_nonpos (by linarith)]
    rcases hz with hz | hz
    · rw [abs_of_nonpos (by linarith)]; linarith
    · rw [abs_of_nonneg (by linarith)]; linarith
  · push_cast
    rw [abs_of_nonneg (by linarith)]
    rcases hz with hz | hz
    · rw [abs_of_nonpos (by linarith)]; linarith
    · rw [abs_of_nonneg (by linarith)]; linarith
  · rw [abs_of_nonpos (by linarith)]
    rcases hz with hz | hz
    · rw [abs_of_nonpos (by linarith)]; linarith
    · rw [abs_of_nonneg (by linarith)]; linarith
  · push_cast
    rw [abs_of_nonneg (by linarith)]
    rcases hz with hz | hz
    · rw [abs_of_nonpos (by linarith)]; linarith
    · rw [abs_of_nonneg (by linarith)]; linarith

theorem roundHalfEven_error (r : ℚ) : |(roundHalfEven r : ℚ) - r| ≤ 1 / 2 := by
  have hf1 : (⌊r⌋ : ℚ) ≤ r := Int.floor_le r
  have hf2 : r < ⌊r⌋ + 1 := Int.lt_floor_add_one r
  rcases le_or_lt (r - ⌊r⌋) (1 / 2) with h | h
  · have := roundHalfEven_nearest r ⌊r⌋
    rw [abs_of_nonpos (by linarith : (⌊r⌋ : ℚ) - r ≤ 0)] at this
    linarith
  · have := roundHalfEven_nearest r (⌊r⌋ + 1)
    push_cast at this
    rw [abs_of_nonneg (by linarith : 0 ≤ (⌊r⌋ : ℚ) + 1 - r)] at this
    linarith

theorem roundHalfEven_eq_of_lt (r : ℚ) (n : ℤ) (h : |r - n| < 1 / 2) : roundHalfEven r = n := by
  have h1 := roundHalfEven_error r
  have h2 : |((roundHalfEven r : ℤ) : ℚ) - n| < 1 := by
    calc |((roundHalfEven r : ℤ) : ℚ) - n| = |((roundHalfEven r : ℚ) - r) + (r - n)| := by ring_nf
      _ ≤ |(roundHalfEven r : ℚ) - r| + |r - n| := abs_add _ _
      _ < 1 := by linarith
  have h3 : |roundHalfEven r - n| < 1 := by exact_mod_cast h2
  have := Int.abs_lt_one_iff.mp h3
  omega

theorem two_zpow_pos (k : ℤ) : (0 : ℚ) < 2 ^ k := zpow_pos (by norm_num) k

theorem fl_zero : fl 0 = 0 := by
  simp [fl, roundHalfEven]

/-- No multiple of the unit in the last place is nearer to `q` than `fl q`. -/
theorem fl_nearest_multiple (q : ℚ) (z : ℤ) :
    |fl q - q| ≤ |(z : ℚ) * 2 ^ ulpExp q - q| := by
  have hu := two_zpow_pos (ulpExp q)
  have h := roundHalfEven_nearest (q / 2 ^ ulpExp q) z
  have e1 : fl q - q = ((roundHalfEven (q / 2 ^ ulpExp q) : ℚ) - q / 2 ^ ulpExp q) * 2 ^ ulpExp q := by
    unfold fl; field_simp
  have e2 : (z : ℚ) * 2 ^ ulpExp q - q = ((z : ℚ) - q / 2 ^ ulpExp q) * 2 ^ ulpExp q := by
    field_simp
  rw [e1, e2, abs_mul, abs_mul, abs_of_pos hu]
  exact mul_le_mul_of_nonneg_right h hu.le

theorem fl_error (q : ℚ) : |fl q - q| ≤ 2 ^ ulpExp q / 2 := by
  have hu := two_zpow_pos (ulpExp q)
  have h := roundHalfEven_error (q / 2 ^ ulpExp q)
  have e1 : fl q - q = ((roundHalfEven (q / 2 ^ ulpExp q) : ℚ) - q / 2 ^ ulpExp q) * 2 ^ ulpExp q := by
    unfold fl; field_simp
  rw [e1, abs_mul, abs_of_pos hu]
  calc _ ≤ (1 / 2) * 2 ^ ulpExp q := mul_le_mul_of_nonneg_right h hu.le
    _ = _ := by ring

theorem log_le_of_abs_le (q : ℚ) (B : ℤ) (h : |q| ≤ 2 ^ B) : Int.log 2 |q| ≤ max B 0 := by
  rcases eq_or_ne q 0 with rfl | hq
  · simp [Int.log_zero_right]
  · have hpos : 0 < |q| := abs_pos.mpr hq
    have := Int.log_mono_right (b := 2) hpos h
    have e : Int.log 2 ((2 : ℚ) ^ B) = B := by
      have := Int.log_zpow (R := ℚ) (b := 2) (by norm_num) B
      simpa using this
    rw [e] at this
    exact le_trans this (le_max_left _ _)

theorem ulpExp_le (q : ℚ) (B : ℤ) (hB : 0 ≤ B) (h : |q| ≤ 2 ^ B) : ulpExp q ≤ B - 52 := by
  have := log_le_of_abs_le q B h
  rw [max_eq_left hB] at this
  unfold ulpExp
  have : max (Int.log 2 |q|) (-1022) ≤ B := max_le this (by omega)
  omega

theorem fl_error_le (q : ℚ) (B : ℤ) (hB : 0 ≤ B) (h : |q| ≤ 2 ^ B) :
    |fl q - q| ≤ 2 ^ (B - 53) := by
  have h1 := fl_error q
  have h2 : (2 : ℚ) ^ ulpExp q ≤ 2 ^ (B - 52) :=
    zpow_le_zpow_right₀ (by norm_num) (ulpExp_le q B hB h)
  have h3 : (2 : ℚ) ^ (B - 52) = 2 * 2 ^ (B - 53) := by
    rw [show B - 52 = (B - 53) + 1 by ring, zpow_add_one₀ (by norm_num)]
    ring
  linarith

theorem fl_nearest (q d : ℚ) (hd : IsDouble d) : |fl q - q| ≤ |d - q| := by
  obtain ⟨m, j, hm, hj, rfl⟩ := hd
  rcases eq_or_ne q 0 with rfl | hq
  · simp [fl_zero]
  have hpos : 0 < |q| := abs_pos.mpr hq
  rcases le_or_lt (ulpExp q) j with hjk | hjk
  · -- the double is a multiple of the unit in the last place
    obtain ⟨t, ht⟩ : ∃ t : ℕ, j = ulpExp q + t := ⟨(j - ulpExp q).toNat, by omega⟩
    have e : (m : ℚ) * 2 ^ j = ((m * 2 ^ t : ℤ) : ℚ) * 2 ^ ulpExp q := by
      rw [ht, zpow_add₀ (by norm_num)]
      push_cast
      rw [zpow_natCast]
      ring
    rw [e]
    exact fl_nearest_multiple q _
  · -- the double lies below the binade of `q`
    have hlog : -1022 < Int.log 2 |q| := by
      unfold ulpExp at hjk
      by_contra hc
      rw [max_eq_right (by omega)] at hjk
      omega
    have hk : ulpExp q = Int.log 2 |q| - 52 := by
      unfold ulpExp
      rw [max_eq_left (by omega)]
    have hle : (2 : ℚ) ^ Int.log 2 |q| ≤ |q| := by
      have := Int.zpow_log_le_self (R := ℚ) (b := 2) (by norm_num) hpos
      simpa using this
    have hdlt : |(m : ℚ) * 2 ^ j| < 2 ^ Int.log 2 |q| := by
      rw [abs_mul, abs_of_pos (two_zpow_pos j)]
      have hm2 : ((|m| : ℤ) : ℚ) < ((2 ^ 53 : ℤ) : ℚ) := by exact_mod_cast hm
      have hm' : |(m : ℚ)| < 2 ^ (53 : ℤ) := by
        rw [Int.cast_abs] at hm2
        calc |(m : ℚ)| < ((2 ^ 53 : ℤ) : ℚ) := hm2
          _ = 2 ^ (53 : ℤ) := by norm_num
      have h2 : (2 : ℚ) ^ j ≤ 2 ^ (ulpExp q - 1) :=
        zpow_le_zpow_right₀ (by norm_num) (by omega)
      calc |(m : ℚ)| * 2 ^ j ≤ |(m : ℚ)| * 2 ^ (ulpExp q - 1) :=
            mul_le_mul_of_nonneg_left h2 (abs_nonneg _)
        _ < 2 ^ (53 : ℤ) * 2 ^ (ulpExp q - 1) :=
            mul_lt_mul_of_pos_right hm' (two_zpow_pos _)
        _ = 2 ^ Int.log 2 |q| := by
            rw [← zpow_add₀ (by norm_num)]
            congr 1
            omega
    -- the power of two at the bottom of the binade is a multiple of the unit
    have e52 : ((2 ^ 52 : ℤ) : ℚ) * 2 ^ ulpExp q = (2 : ℚ) ^ Int.log 2 |q| := by
      rw [hk, show ((2 ^ 52 : ℤ) : ℚ) = (2 : ℚ) ^ (52 : ℤ) by norm_num,
        ← zpow_add₀ (by norm_num)]
      congr 1
      ring
    have hb := abs_lt.mp hdlt
    rcases lt_or_gt_of_ne hq with hneg | hposq
    · have h := fl_nearest_multiple q (-(2 ^ 52 : ℤ))
      have habs : |q| = -q := abs_of_neg hneg
      have hw : ((-(2 ^ 52 : ℤ) : ℤ) : ℚ) * 2 ^ ulpExp q = -(2 : ℚ) ^ Int.log 2 |q| := by
        rw [← e52]; push_cast; ring
      rw [hw] at h
      rw [habs] at hle
      have h1 : |-(2 : ℚ) ^ Int.log 2 |q| - q| = -(2 : ℚ) ^ Int.log 2 |q| - q := by
        rw [habs]; exact abs_of_nonneg (by linarith)
      have h2 : |(m : ℚ) * 2 ^ j - q| = (m : ℚ) * 2 ^ j - q :=
        abs_of_nonneg (by rw [habs] at hb; linarith)
      rw [h1] at h
      rw [h2]
      linarith
    · have h := fl_nearest_multiple q (2 ^ 52 : ℤ)
      have habs : |q| = q := abs_of_pos hposq
      rw [e52] at h
      rw [habs] at hle
      have h1 : |(2 : ℚ) ^ Int.log 2 |q| - q| = -((2 : ℚ) ^ Int.log 2 |q| - q) := by
        rw [habs]; exact abs_of_nonpos (by linarith)
      have h2 : |(m : ℚ) * 2 ^ j - q| = -((m : ℚ) * 2 ^ j - q) :=
        abs_of_nonpos (by rw [habs] at hb; linarith)
      rw [h1] at h
      rw [h2]
      linarith

theorem fl_of_isDouble (d : ℚ) (hd : IsDouble d) : fl d = d := by
  have := fl_nearest d d hd
  simp only [sub_self, abs_zero] at this
  have := abs_eq_zero.mp (le_antisymm this (abs_nonneg _))
  linarith

theorem fl_le_of_le (q d : ℚ) (hd : IsDouble d) (h : q ≤ d) : fl q ≤ d := by
  by_contra hc
  push_neg at hc
  have := fl_nearest q d hd
  rw [abs_of_nonneg (by linarith), abs_of_nonneg (by linarith)] at this
  linarith

theorem le_fl_of_le (q d : ℚ) (hd : IsDouble d) (h : d ≤ q) : d ≤ fl q := by
  by_contra hc
  push_neg at hc
  have := fl_nearest q d hd
  rw [abs_of_nonpos (by linarith), abs_of_nonpos (by linarith)] at this
  linarith

theorem ulpExp_eq (q : ℚ) (e : ℤ) (he : -1022 ≤ e) (h1 : 2 ^ e ≤ |q|) (h2 : |q| < 2 ^ (e + 1)) :
    ulpExp q = e - 52 := by
  have hpos : 0 < |q| := lt_of_lt_of_le (two_zpow_pos e) h1
  have hlog : Int.log 2 |q| = e := by
    have a : e ≤ Int.log 2 |q| :=
      (Int.zpow_le_iff_le_log (R := ℚ) (b := 2) (by norm_num) hpos).mp (by simpa using h1)
    have b : Int.log 2 |q| < e + 1 :=
      (Int.lt_zpow_iff_log_lt (R := ℚ) (b := 2) (by norm_num) hpos).mp (by simpa using h2)
    omega
  unfold ulpExp
  rw [hlog, max_eq_left he]

theorem fl_eq_of_lt (q : ℚ) (e n : ℤ) (he : -1022 ≤ e) (h1 : 2 ^ e ≤ |q|)
    (h2 : |q| < 2 ^ (e + 1)) (hn : |q - n * 2 ^ (e - 52)| < 2 ^ (e - 52) / 2) :
    fl q = n * 2 ^ (e - 52) := by
  have hk := ulpExp_eq q e he h1 h2
  have hu := two_zpow_pos (e - 52)
  unfold fl
  rw [hk]
  congr 1
  have : roundHalfEven (q / 2 ^ (e - 52)) = n := by
    apply roundHalfEven_eq_of_lt
    have e1 : q / 2 ^ (e - 52) - n = (q - n * 2 ^ (e - 52)) / 2 ^ (e - 52) := by
      field_simp
      ring
    rw [e1, abs_div, abs_of_pos hu, div_lt_iff₀ hu]
    linarith
  exact_mod_cast this

theorem roundHalfEven_tie (n : ℤ) :
    roundHalfEven ((n : ℚ) + 1 / 2) = if n % 2 = 0 then n else n + 1 := by
  have hf : ⌊(n : ℚ) + 1 / 2⌋ = n := by
    rw [Int.floor_eq_iff]
    constructor <;> norm_num
  unfold roundHalfEven
  rw [hf]
  have e : (n : ℚ) + 1 / 2 - n = 1 / 2 := by ring
  rw [e]
  simp

theorem fl_eq_of_tie (q : ℚ) (e n : ℤ) (he : -1022 ≤ e) (h1 : 2 ^ e ≤ |q|)
    (h2 : |q| < 2 ^ (e + 1)) (hn : q = ((n : ℚ) + 1 / 2) * 2 ^ (e - 52)) :
    fl q = ((if n % 2 = 0 then n else n + 1 : ℤ) : ℚ) * 2 ^ (e - 52) := by
  have hk := ulpExp_eq q e he h1 h2
  have hu := two_zpow_pos (e - 52)
  unfold fl
  rw [hk]
  congr 2
  have e1 : q / 2 ^ (e - 52) = (n : ℚ) + 1 / 2 := by
    rw [hn]; field_simp
    ring
  rw [e1, roundHalfEven_tie]

/-! ## The constants of the program -/

theorem M_PI_pos : 0 < M_PI := by norm_num [M_PI]

theorem isDouble_zero : IsDouble 0 := ⟨0, 0, by norm_num, by norm_num, by norm_num⟩

theorem isDouble_neg {d : ℚ} (h : IsDouble d) : IsDouble (-d) := by
  obtain ⟨m, j, hm, hj, rfl⟩ := h
  exact ⟨-m, j, by rwa [abs_neg], hj, by push_cast; ring⟩

theorem isDouble_M_PI : IsDouble M_PI :=
  ⟨884279719003555, -48, by norm_num, by norm_num, by norm_num [M_PI]⟩

/-- The product `2 * M_PI` is exact. -/
theorem fl_two_M_PI : fl (2 * M_PI) = 2 * M_PI :=
  fl_of_isDouble _ ⟨884279719003555, -47, by norm_num, by norm_num, by norm_num [M_PI]⟩

/-- The literal `0.3`. -/
theorem fl_three_tenths : fl (3 / 10 : ℚ) = 5404319552844595 / 18014398509481984 := by
  rw [fl_eq_of_lt (3 / 10 : ℚ) (-2) 5404319552844595 (by norm_num)
    (by rw [abs_of_pos (by norm_num)]; norm_num)
    (by rw [abs_of_pos (by norm_num)]; norm_num)
    (by rw [abs_lt]; constructor <;> norm_num)]
  norm_num

/-- The literal `0.1`. -/
theorem fl_one_tenth : fl (1 / 10 : ℚ) = 3602879701896397 / 36028797018963968 := by
  rw [fl_eq_of_lt (1 / 10 : ℚ) (-4) 7205759403792794 (by norm_num)
    (by rw [abs_of_pos (by norm_num)]; norm_num)
    (by rw [abs_of_pos (by norm_num)]; norm_num)
    (by rw [abs_lt]; constructor <;> norm_num)]
  norm_num

/-- The literal `0.001`. -/
theorem fl_one_thousandth : fl (1 / 1000 : ℚ) = 1152921504606847 / 1152921504606846976 := by
  rw [fl_eq_of_lt (1 / 1000 : ℚ) (-10) 4611686018427388 (by norm_num)
    (by rw [abs_of_pos (by norm_num)]; norm_num)
    (by rw [abs_of_pos (by norm_num)]; norm_num)
    (by rw [abs_lt]; constructor <;> norm_num)]
  norm_num

/-- The product `75 * M_PI`. -/
theorem fl_75_M_PI : fl (75 * M_PI) = 1036265295707291 / 4398046511104 := by
  rw [show (75 * M_PI) = (66320978925266625 / 281474976710656 : ℚ) by norm_num [M_PI]]
  rw [fl_eq_of_lt (66320978925266625 / 281474976710656 : ℚ) 7 8290122365658328 (by norm_num)
    (by rw [abs_of_pos (by norm_num)]; norm_num)
    (by rw [abs_of_pos (by norm_num)]; norm_num)
    (by rw [abs_lt]; constructor <;> norm_num)]
  norm_num

/-- The quotient `75 * M_PI / 180`. -/
theorem fl_75_M_PI_div : fl (1036265295707291 / 791648371998720 : ℚ) = 5895198126690367 / 4503599627370496 := by
  rw [fl_eq_of_lt (1036265295707291 / 791648371998720 : ℚ) 0 5895198126690367 (by norm_num)
    (by rw [abs_of_pos (by norm_num)]; norm_num)
    (by rw [abs_of_pos (by norm_num)]; norm_num)
    (by rw [abs_lt]; constructor <;> norm_num)]
  norm_num

/-- The product `20 * M_PI`. -/
theorem fl_20_M_PI : fl (20 * M_PI) = 4421398595017775 / 70368744177664 := by
  rw [show (20 * M_PI) = (4421398595017775 / 70368744177664 : ℚ) by norm_num [M_PI]]
  rw [fl_eq_of_lt (4421398595017775 / 70368744177664 : ℚ) 5 8842797190035550 (by norm_num)
    (by rw [abs_of_pos (by norm_num)]; norm_num)
    (by rw [abs_of_pos (by norm_num)]; norm_num)
    (by rw [abs_lt]; constructor <;> norm_num)]
  norm_num

/-- The quotient `20 * M_PI / 180`. -/
theorem fl_20_M_PI_div : fl (884279719003555 / 2533274790395904 : ℚ) = 6288211335136391 / 18014398509481984 := by
  rw [fl_eq_of_lt (884279719003555 / 2533274790395904 : ℚ) (-2) 6288211335136391 (by norm_num)
    (by rw [abs_of_pos (by norm_num)]; norm_num)
    (by rw [abs_of_pos (by norm_num)]; norm_num)
    (by rw [abs_lt]; constructor <;> norm_num)]
  norm_num

/-- At `10 ^ 17` the subtraction of `2 * M_PI` changes nothing. -/
theorem fl_1e17_sub : fl (100000000000000000 - 2 * M_PI) = 100000000000000000 := by
  rw [show (100000000000000000 - 2 * M_PI) = (14073748835532799115720280996445 / 140737488355328 : ℚ) by norm_num [M_PI]]
  rw [fl_eq_of_lt (14073748835532799115720280996445 / 140737488355328 : ℚ) 56 6250000000000000 (by norm_num)
    (by rw [abs_of_pos (by norm_num)]; norm_num)
    (by rw [abs_of_pos (by norm_num)]; norm_num)
    (by rw [abs_lt]; constructor <;> norm_num)]
  norm_num

/-- At `3 * 10 ^ 17` the subtraction of `2 * M_PI` changes nothing. -/
theorem fl_3e17_sub : fl (300000000000000000 - 2 * M_PI) = 300000000000000000 := by
  rw [show ((300000000000000000 : ℚ) - 2 * M_PI) = (42221246506598399115720280996445 / 140737488355328 : ℚ) by norm_num [M_PI]]
  rw [fl_eq_of_lt (42221246506598399115720280996445 / 140737488355328 : ℚ) 58 4687500000000000 (by norm_num)
    (by rw [abs_of_pos (by norm_num)]; norm_num)
    (by rw [abs_of_pos (by norm_num)]; norm_num)
    (by rw [abs_lt]; constructor <;> norm_num)]
  norm_num

/-- The expression `75 * M_PI / 180` evaluates to `heading_error_limit`. -/
theorem heading_error_limit_eq : fl (fl (75 * M_PI) / 180) = heading_error_limit := by
  rw [fl_75_M_PI, show (1036265295707291 / 4398046511104 / 180 : ℚ)
    = 1036265295707291 / 791648371998720 by norm_num, fl_75_M_PI_div]
  rfl

/-- The expression `20 * M_PI / 180` evaluates to `small_heading_error`. -/
theorem small_heading_error_eq : fl (fl (20 * M_PI) / 180) = small_heading_error := by
  rw [fl_20_M_PI, show (4421398595017775 / 70368744177664 / 180 : ℚ)
    = 884279719003555 / 2533274790395904 by norm_num, fl_20_M_PI_div]
  rfl

/-- The literal `0.3` denotes `double_0_3`. -/
theorem double_0_3_eq : fl (3 / 10) = double_0_3 := fl_three_tenths

/-- The literal `0.1` denotes `double_0_1`. -/
theorem double_0_1_eq : fl (1 / 10) = double_0_1 := fl_one_tenth

/-- The literal `0.001` denotes `double_0_001`. -/
theorem double_0_001_eq : fl (1 / 1000) = double_0_001 := fl_one_thousandth

theorem search_delta_s_bounds (env : Env) :
    999 / 10000 < search_delta_s env ∧ search_delta_s env < 1 := by
  unfold search_delta_s double_0_1 double_0_3
  split <;> constructor <;> norm_num

/-! ## Angle normalisation: range, termination, exactness -/

theorem constraintAngle_step_hi (fuel : ℕ) (x : ℚ) (h : x > M_PI) :
    constraintAngle (fuel + 1) x = constraintAngle fuel (fl (x - 2 * M_PI)) := by
  rw [constraintAngle, if_pos h]

theorem constraintAngle_step_lo (fuel : ℕ) (x : ℚ) (h : x < -M_PI) :
    constraintAngle (fuel + 1) x = constraintAngle fuel (fl (x + 2 * M_PI)) := by
  have h' : ¬ x > M_PI := by have := M_PI_pos; intro hc; linarith
  rw [constraintAngle, if_neg h', if_pos h]

/-- An angle that is neither above `M_PI` nor below `-M_PI` is returned as it is. -/
theorem constraintAngle_of_mem (fuel : ℕ) {x : ℚ} (h1 : -M_PI ≤ x) (h2 : x ≤ M_PI) :
    constraintAngle (fuel + 1) x = .ok x := by
  rw [constraintAngle, if_neg (not_lt.mpr h2), if_neg (not_lt.mpr h1)]

/-- Whatever `constraintAngle` returns lies in the closed interval from `-M_PI` to
`M_PI`. -/
theorem constraintAngle_mem :
    ∀ (fuel : ℕ) (x y : ℚ), constraintAngle fuel x = .ok y → -M_PI ≤ y ∧ y ≤ M_PI := by
  intro fuel
  induction fuel with
  | zero => intro x y h; simp [constraintAngle] at h
  | succ f ih =>
    intro x y h
    by_cases h1 : x > M_PI
    · rw [constraintAngle_step_hi f x h1] at h
      exact ih _ y h
    · by_cases h2 : x < -M_PI
      · rw [constraintAngle_step_lo f x h2] at h
        exact ih _ y h
      · rw [constraintAngle_of_mem f (not_lt.mp h2) (not_lt.mp h1)] at h
        injection h with h
        subst h
        exact ⟨not_lt.mp h2, not_lt.mp h1⟩

/-- One subtraction of `2 * M_PI` from an angle above `M_PI` and at most `2 ^ 52` gives
an angle that is at least `-M_PI` and at least 5 smaller. -/
theorem fl_sub_two_pi_bounds (x : ℚ) (h : M_PI < x) (hx : x ≤ 2 ^ 52) :
    -M_PI ≤ fl (x - 2 * M_PI) ∧ fl (x - 2 * M_PI) ≤ x - 5 := by
  have hp := M_PI_pos
  constructor
  · exact le_fl_of_le _ _ (isDouble_neg isDouble_M_PI) (by linarith)
  · have habs : |x - 2 * M_PI| ≤ 2 ^ (52 : ℤ) := by
      rw [abs_le]
      constructor
      · have : (0 : ℚ) ≤ 2 ^ (52 : ℤ) := by norm_num
        linarith
      · have : (2 : ℚ) ^ (52 : ℤ) = 2 ^ 52 := by norm_num
        linarith
    have herr := fl_error_le (x - 2 * M_PI) 52 (by norm_num) habs
    have h2 : (2 : ℚ) ^ ((52 : ℤ) - 53) = 1 / 2 := by norm_num
    rw [h2] at herr
    have := (abs_le.mp herr).2
    have hpi : (11 : ℚ) / 2 ≤ 2 * M_PI := by norm_num [M_PI]
    linarith

/-- One addition of `2 * M_PI` to an angle below `-M_PI` and at least `-2 ^ 52` gives an
angle that is at most `M_PI` and at least 5 larger. -/
theorem fl_add_two_pi_bounds (x : ℚ) (h : x < -M_PI) (hx : -2 ^ 52 ≤ x) :
    fl (x + 2 * M_PI) ≤ M_PI ∧ x + 5 ≤ fl (x + 2 * M_PI) := by
  have hp := M_PI_pos
  constructor
  · exact fl_le_of_le _ _ isDouble_M_PI (by linarith)
  · have habs : |x + 2 * M_PI| ≤ 2 ^ (52 : ℤ) := by
      rw [abs_le]
      constructor
      · have : (2 : ℚ) ^ (52 : ℤ) = 2 ^ 52 := by norm_num
        linarith
      · have : (0 : ℚ) ≤ 2 ^ (52 : ℤ) := by norm_num
        linarith
    have herr := fl_error_le (x + 2 * M_PI) 52 (by norm_num) habs
    have h2 : (2 : ℚ) ^ ((52 : ℤ) - 53) = 1 / 2 := by norm_num
    rw [h2] at herr
    have := (abs_le.mp herr).1
    have hpi : (11 : ℚ) / 2 ≤ 2 * M_PI := by norm_num [M_PI]
    linarith

/-- An angle of magnitude at most `2 ^ 52` is normalised within `n + 1` levels of the
recursion when its magnitude is at most `M_PI + 5 * n`. -/
theorem constraintAngle_returns_aux :
    ∀ (n : ℕ) (x : ℚ), |x| ≤ 2 ^ 52 → |x| ≤ M_PI + 5 * n →
      ∃ y, constraintAngle (n + 1) x = .ok y := by
  have hp := M_PI_pos
  intro n
  induction n with
  | zero =>
    intro x _ h
    have := abs_le.mp h
    exact ⟨x, constraintAngle_of_mem 0 (by simpa using this.1) (by simpa using this.2)⟩
  | succ n ih =>
    intro x hx h
    have hx' := abs_le.mp hx
    have h' := abs_le.mp h
    push_cast at h'
    have h52 : M_PI ≤ 2 ^ 52 := by norm_num [M_PI]
    have hn : (0 : ℚ) ≤ 5 * n := by positivity
    by_cases h1 : x > M_PI
    · obtain ⟨hlo, hhi⟩ := fl_sub_two_pi_bounds x h1 hx'.2
      have b1 : |fl (x - 2 * M_PI)| ≤ 2 ^ 52 := abs_le.mpr ⟨by linarith, by linarith⟩
      have b2 : |fl (x - 2 * M_PI)| ≤ M_PI + 5 * n :=
        abs_le.mpr ⟨by linarith, by linarith [h'.2]⟩
      obtain ⟨y, hy⟩ := ih (fl (x - 2 * M_PI)) b1 b2
      exact ⟨y, by rw [constraintAngle_step_hi _ x h1]; exact hy⟩
    · by_cases h2 : x < -M_PI
      · obtain ⟨hhi, hlo⟩ := fl_add_two_pi_bounds x h2 hx'.1
        have b1 : |fl (x + 2 * M_PI)| ≤ 2 ^ 52 := abs_le.mpr ⟨by linarith, by linarith⟩
        have b2 : |fl (x + 2 * M_PI)| ≤ M_PI + 5 * n :=
          abs_le.mpr ⟨by linarith [h'.1], by linarith⟩
        obtain ⟨y, hy⟩ := ih (fl (x + 2 * M_PI)) b1 b2
        exact ⟨y, by rw [constraintAngle_step_lo _ x h2]; exact hy⟩
      · exact ⟨x, constraintAngle_of_mem _ (not_lt.mp h2) (not_lt.mp h1)⟩

/-- An angle of magnitude at most `2 ^ 52` is normalised when the fuel is at least a
fifth of its magnitude plus one. -/
theorem constraintAngle_returns (fuel : ℕ) (x : ℚ) (hx : |x| ≤ 2 ^ 52)
    (hfuel : |x| / 5 + 1 ≤ fuel) : ∃ y, constraintAngle fuel x = .ok y := by
  obtain ⟨n, rfl⟩ : ∃ n, fuel = n + 1 := by
    cases fuel with
    | zero =>
      exfalso
      have : 0 ≤ |x| / 5 := by positivity
      push_cast at hfuel
      linarith
    | succ n => exact ⟨n, rfl⟩
  apply constraintAngle_returns_aux n x hx
  push_cast at hfuel
  have := M_PI_pos
  linarith

/-- The result of `constraintAngle` is one of its fixed points. -/
theorem constraintAngle_fixed (fuel fuel' : ℕ) (x y : ℚ)
    (h : constraintAngle fuel x = .ok y) : constraintAngle (fuel' + 1) y = .ok y :=
  constraintAngle_of_mem fuel' (constraintAngle_mem fuel x y h).1
    (constraintAngle_mem fuel x y h).2

/-- The difference of a double of magnitude at most 64 above `M_PI` and `2 * M_PI` is a
double. -/
theorem isDouble_sub_two_pi (v : ℚ) (hv : IsDouble v) (h64 : |v| ≤ 64) (hgt : M_PI < v) :
    IsDouble (v - 2 * M_PI) := by
  have hp := M_PI_pos
  obtain ⟨m, j, hm, hj, rfl⟩ := hv
  have hvpos : |(m : ℚ) * 2 ^ j| = (m : ℚ) * 2 ^ j := abs_of_pos (by linarith)
  have hdlt : |(m : ℚ) * 2 ^ j - 2 * M_PI| < (m : ℚ) * 2 ^ j := by
    rw [abs_lt]; constructor <;> linarith
  have hpi : 2 * M_PI = (884279719003555 : ℚ) * 2 ^ (-47 : ℤ) := by norm_num [M_PI]
  rcases le_or_lt (-47) j with hj47 | hj47
  · obtain ⟨t, ht⟩ : ∃ t : ℕ, j = -47 + t := ⟨(j + 47).toNat, by omega⟩
    refine ⟨m * 2 ^ t - 884279719003555, -47, ?_, by norm_num, ?_⟩
    · have e : (m : ℚ) * 2 ^ j - 2 * M_PI
          = ((m * 2 ^ t - 884279719003555 : ℤ) : ℚ) * 2 ^ (-47 : ℤ) := by
        rw [hpi, ht, zpow_add₀ (by norm_num)]
        push_cast
        rw [zpow_natCast]
        ring
      rw [e, abs_mul, abs_of_pos (two_zpow_pos _)] at hdlt
      rw [hvpos] at h64
      have h1 : |((m * 2 ^ t - 884279719003555 : ℤ) : ℚ)| * 2 ^ (-47 : ℤ) < 64 :=
        lt_of_lt_of_le hdlt h64
      have h2 : |((m * 2 ^ t - 884279719003555 : ℤ) : ℚ)| < ((2 ^ 53 : ℤ) : ℚ) := by
        have h3 : (2 : ℚ) ^ (-47 : ℤ) = 1 / 140737488355328 := by norm_num
        rw [h3] at h1
        have : ((2 ^ 53 : ℤ) : ℚ) = 9007199254740992 := by norm_num
        rw [this]
        linarith
      rw [← Int.cast_abs] at h2
      exact_mod_cast h2
    · rw [hpi, ht, zpow_add₀ (by norm_num)]
      push_cast
      rw [zpow_natCast]
      ring
  · obtain ⟨t, ht⟩ : ∃ t : ℕ, -47 = j + t := ⟨(-47 - j).toNat, by omega⟩
    have hpi' : 2 * M_PI = ((884279719003555 * 2 ^ t : ℤ) : ℚ) * 2 ^ j := by
      rw [hpi, ht, zpow_add₀ (by norm_num)]
      push_cast
      rw [zpow_natCast]
      ring
    refine ⟨m - 884279719003555 * 2 ^ t, j, ?_, hj, ?_⟩
    · have e : (m : ℚ) * 2 ^ j - 2 * M_PI
          = ((m - 884279719003555 * 2 ^ t : ℤ) : ℚ) * 2 ^ j := by
        rw [hpi']; push_cast; ring
      rw [e, abs_mul, abs_of_pos (two_zpow_pos _)] at hdlt
      have hmpos : (0 : ℚ) < m := by
        have := two_zpow_pos j
        by_contra hc
        push_neg at hc
        have : (m : ℚ) * 2 ^ j ≤ 0 := mul_nonpos_of_nonpos_of_nonneg hc this.le
        linarith
      have h1 : |((m - 884279719003555 * 2 ^ t : ℤ) : ℚ)| < (m : ℚ) :=
        lt_of_mul_lt_mul_right hdlt (two_zpow_pos j).le
      rw [← Int.cast_abs] at h1
      have h2 : |m - 884279719003555 * 2 ^ t| < m := by exact_mod_cast h1
      have h3 : m ≤ |m| := le_abs_self m
      omega
    · rw [hpi']; push_cast; ring

/-- The sum of a double of magnitude at most 64 below `-M_PI` and `2 * M_PI` is a
double. -/
theorem isDouble_add_two_pi (v : ℚ) (hv : IsDouble v) (h64 : |v| ≤ 64) (hlt : v < -M_PI) :
    IsDouble (v + 2 * M_PI) := by
  have := isDouble_neg (isDouble_sub_two_pi (-v) (isDouble_neg hv) (by rwa [abs_neg])
    (by linarith))
  have e : -(-v - 2 * M_PI) = v + 2 * M_PI := by ring
  rwa [e] at this

/-- On a double of magnitude at most 64 every step of `constraintAngle` is exact, and
the result differs from the angle by an integer multiple of `2 * M_PI`. -/
theorem constraintAngle_exact :
    ∀ (fuel : ℕ) (x y : ℚ), IsDouble x → |x| ≤ 64 → constraintAngle fuel x = .ok y →
      ∃ n : ℤ, y = x + n * (2 * M_PI) := by
  have hp := M_PI_pos
  intro fuel
  induction fuel with
  | zero => intro x y _ _ h; simp [constraintAngle] at h
  | succ f ih =>
    intro x y hd h64 h
    have h64' := abs_le.mp h64
    by_cases h1 : x > M_PI
    · have hdd := isDouble_sub_two_pi x hd h64 h1
      rw [constraintAngle_step_hi f x h1, fl_of_isDouble _ hdd] at h
      obtain ⟨n, hn⟩ := ih _ y hdd (abs_le.mpr ⟨by linarith, by linarith⟩) h
      exact ⟨n - 1, by rw [hn]; push_cast; ring⟩
    · by_cases h2 : x < -M_PI
      · have hdd := isDouble_add_two_pi x hd h64 h2
        rw [constraintAngle_step_lo f x h2, fl_of_isDouble _ hdd] at h
        obtain ⟨n, hn⟩ := ih _ y hdd (abs_le.mpr ⟨by linarith, by linarith⟩) h
        exact ⟨n + 1, by rw [hn]; push_cast; ring⟩
      · rw [constraintAngle_of_mem f (not_lt.mp h2) (not_lt.mp h1)] at h
        injection h with h
        exact ⟨0, by rw [← h]; simp⟩

/-- At `10 ^ 17` the recursion of `constraintAngle` never ends: the subtraction of
`2 * M_PI` returns `10 ^ 17`, so every fuel is used up. -/
theorem constraintAngle_1e17_diverges (fuel : ℕ) :
    constraintAngle fuel 100000000000000000 = .error Fault.outOfFuel := by
  induction fuel with
  | zero => rfl
  | succ f ih =>
    rw [constraintAngle_step_hi f _ (by norm_num [M_PI]), fl_1e17_sub]
    exact ih

/-- At `3 * 10 ^ 17` the recursion of `constraintAngle` never ends either. -/
theorem constraintAngle_3e17_diverges (fuel : ℕ) :
    constraintAngle fuel 300000000000000000 = .error Fault.outOfFuel := by
  induction fuel with
  | zero => rfl
  | succ f ih =>
    rw [constraintAngle_step_hi f _ (by norm_num [M_PI]), fl_3e17_sub]
    exact ih

/-- At `100` the first five subtractions of `2 * M_PI` are rounded; after 16 subtractions
`constraintAngle` returns the angle below. -/
theorem constraintAngle_100 :
    constraintAngle 17 100 = .ok (-74726668524085 / 140737488355328 : ℚ) := by
  have s0 : fl ((100 : ℚ) - 2 * M_PI) = (3297367279132311 / 35184372088832 : ℚ) := by
    rw [show ((100 : ℚ) - 2 * M_PI) = (13189469116529245 / 140737488355328 : ℚ) by norm_num [M_PI]]
    rw [fl_eq_of_tie (13189469116529245 / 140737488355328 : ℚ) 6 6594734558264622 (by norm_num)
      (by rw [abs_of_pos (by norm_num)]; norm_num)
      (by rw [abs_of_pos (by norm_num)]; norm_num)
      (by norm_num)]
    norm_num
  have s1 : fl ((3297367279132311 / 35184372088832 : ℚ) - 2 * M_PI) = (1538148674690711 / 17592186044416 : ℚ) := by
    rw [show ((3297367279132311 / 35184372088832 : ℚ) - 2 * M_PI) = (12305189397525689 / 140737488355328 : ℚ) by norm_num [M_PI]]
    rw [fl_eq_of_tie (12305189397525689 / 140737488355328 : ℚ) 6 6152594698762844 (by norm_num)
      (by rw [abs_of_pos (by norm_num)]; norm_num)
      (by rw [abs_of_pos (by norm_num)]; norm_num)
      (by norm_num)]
    norm_num
  have s2 : fl ((1538148674690711 / 17592186044416 : ℚ) - 2 * M_PI) = (2855227419630533 / 35184372088832 : ℚ) := by
    rw [show ((1538148674690711 / 17592186044416 : ℚ) - 2 * M_PI) = (11420909678522133 / 140737488355328 : ℚ) by norm_num [M_PI]]
    rw [fl_eq_of_tie (11420909678522133 / 140737488355328 : ℚ) 6 5710454839261066 (by norm_num)
      (by rw [abs_of_pos (by norm_num)]; norm_num)
      (by rw [abs_of_pos (by norm_num)]; norm_num)
      (by norm_num)]
    norm_num
  have s3 : fl ((2855227419630533 / 35184372088832 : ℚ) - 2 * M_PI) = (658539372469911 / 8796093022208 : ℚ) := by
    rw [show ((2855227419630533 / 35184372088832 : ℚ) - 2 * M_PI) = (10536629959518577 / 140737488355328 : ℚ) by norm_num [M_PI]]
    rw [fl_eq_of_tie (10536629959518577 / 140737488355328 : ℚ) 6 5268314979759288 (by norm_num)
      (by rw [abs_of_pos (by norm_num)]; norm_num)
      (by rw [abs_of_pos (by norm_num)]; norm_num)
      (by norm_num)]
    norm_num
  have s4 : fl ((658539372469911 / 8796093022208 : ℚ) - 2 * M_PI) = (2413087560128755 / 35184372088832 : ℚ) := by
    rw [show ((658539372469911 / 8796093022208 : ℚ) - 2 * M_PI) = (9652350240515021 / 140737488355328 : ℚ) by norm_num [M_PI]]
    rw [fl_eq_of_tie (9652350240515021 / 140737488355328 : ℚ) 6 4826175120257510 (by norm_num)
      (by rw [abs_of_pos (by norm_num)]; norm_num)
      (by rw [abs_of_pos (by norm_num)]; norm_num)
      (by norm_num)]
    norm_num
  have s5 : fl ((2413087560128755 / 35184372088832 : ℚ) - 2 * M_PI) = (8768070521511465 / 140737488355328 : ℚ) := by
    rw [show ((2413087560128755 / 35184372088832 : ℚ) - 2 * M_PI) = (8768070521511465 / 140737488355328 : ℚ) by norm_num [M_PI]]
    rw [fl_eq_of_lt (8768070521511465 / 140737488355328 : ℚ) 5 8768070521511465 (by norm_num)
      (by rw [abs_of_pos (by norm_num)]; norm_num)
      (by rw [abs_of_pos (by norm_num)]; norm_num)
      (by rw [abs_lt]; constructor <;> norm_num)]
    norm_num
  have s6 : fl ((8768070521511465 / 140737488355328 : ℚ) - 2 * M_PI) = (3941895401253955 / 70368744177664 : ℚ) := by
    rw [show ((8768070521511465 / 140737488355328 : ℚ) - 2 * M_PI) = (3941895401253955 / 70368744177664 : ℚ) by norm_num [M_PI]]
    rw [fl_eq_of_lt (3941895401253955 / 70368744177664 : ℚ) 5 7883790802507910 (by norm_num)
      (by rw [abs_of_pos (by norm_num)]; norm_num)
      (by rw [abs_of_pos (by norm_num)]; norm_num)
      (by rw [abs_lt]; constructor <;> norm_num)]
    norm_num
  have s7 : fl ((3941895401253955 / 70368744177664 : ℚ) - 2 * M_PI) = (6999511083504355 / 140737488355328 : ℚ) := by
    rw [show ((3941895401253955 / 70368744177664 : ℚ) - 2 * M_PI) = (6999511083504355 / 140737488355328 : ℚ) by norm_num [M_PI]]
    rw [fl_eq_of_lt (6999511083504355 / 140737488355328 : ℚ) 5 6999511083504355 (by norm_num)
      (by rw [abs_of_pos (by norm_num)]; norm_num)
      (by rw [abs_of_pos (by norm_num)]; norm_num)
      (by rw [abs_lt]; constructor <;> norm_num)]
    norm_num
  have s8 : fl ((6999511083504355 / 140737488355328 : ℚ) - 2 * M_PI) = (95550490070325 / 2199023255552 : ℚ) := by
    rw [show ((6999511083504355 / 140737488355328 : ℚ) - 2 * M_PI) = (95550490070325 / 2199023255552 : ℚ) by norm_num [M_PI]]
    rw [fl_eq_of_lt (95550490070325 / 2199023255552 : ℚ) 5 6115231364500800 (by norm_num)
      (by rw [abs_of_pos (by norm_num)]; norm_num)
      (by rw [abs_of_pos (by norm_num)]; norm_num)
      (by rw [abs_lt]; constructor <;> norm_num)]
    norm_num
  have s9 : fl ((95550490070325 / 2199023255552 : ℚ) - 2 * M_PI) = (5230951645497245 / 140737488355328 : ℚ) := by
    rw [show ((95550490070325 / 2199023255552 : ℚ) - 2 * M_PI) = (5230951645497245 / 140737488355328 : ℚ) by norm_num [M_PI]]
    rw [fl_eq_of_lt (5230951645497245 / 140737488355328 : ℚ) 5 5230951645497245 (by norm_num)
      (by rw [abs_of_pos (by norm_num)]; norm_num)
      (by rw [abs_of_pos (by norm_num)]; norm_num)
      (by rw [abs_lt]; constructor <;> norm_num)]
    norm_num
  have s10 : fl ((5230951645497245 / 140737488355328 : ℚ) - 2 * M_PI) = (2173335963246845 / 70368744177664 : ℚ) := by
    rw [show ((5230951645497245 / 140737488355328 : ℚ) - 2 * M_PI) = (2173335963246845 / 70368744177664 : ℚ) by norm_num [M_PI]]
    rw [fl_eq_of_lt (2173335963246845 / 70368744177664 : ℚ) 4 8693343852987380 (by norm_num)
      (by rw [abs_of_pos (by norm_num)]; norm_num)
      (by rw [abs_of_pos (by norm_num)]; norm_num)
      (by rw [abs_lt]; constructor <;> norm_num)]
    norm_num
  have s11 : fl ((2173335963246845 / 70368744177664 : ℚ) - 2 * M_PI) = (3462392207490135 / 140737488355328 : ℚ) := by
    rw [show ((2173335963246845 / 70368744177664 : ℚ) - 2 * M_PI) = (3462392207490135 / 140737488355328 : ℚ) by norm_num [M_PI]]
    rw [fl_eq_of_lt (3462392207490135 / 140737488355328 : ℚ) 4 6924784414980270 (by norm_num)
      (by rw [abs_of_pos (by norm_num)]; norm_num)
      (by rw [abs_of_pos (by norm_num)]; norm_num)
      (by rw [abs_lt]; constructor <;> norm_num)]
    norm_num
  have s12 : fl ((3462392207490135 / 140737488355328 : ℚ) - 2 * M_PI) = (644528122121645 / 35184372088832 : ℚ) := by
    rw [show ((3462392207490135 / 140737488355328 : ℚ) - 2 * M_PI) = (644528122121645 / 35184372088832 : ℚ) by norm_num [M_PI]]
    rw [fl_eq_of_lt (644528122121645 / 35184372088832 : ℚ) 4 5156224976973160 (by norm_num)
      (by rw [abs_of_pos (by norm_num)]; norm_num)
      (by rw [abs_of_pos (by norm_num)]; norm_num)
      (by rw [abs_lt]; constructor <;> norm_num)]
    norm_num
  have s13 : fl ((644528122121645 / 35184372088832 : ℚ) - 2 * M_PI) = (1693832769483025 / 140737488355328 : ℚ) := by
    rw [show ((644528122121645 / 35184372088832 : ℚ) - 2 * M_PI) = (1693832769483025 / 140737488355328 : ℚ) by norm_num [M_PI]]
    rw [fl_eq_of_lt (1693832769483025 / 140737488355328 : ℚ) 3 6775331077932100 (by norm_num)
      (by rw [abs_of_pos (by norm_num)]; norm_num)
      (by rw [abs_of_pos (by norm_num)]; norm_num)
      (by rw [abs_lt]; constructor <;> norm_num)]
    norm_num
  have s14 : fl ((1693832769483025 / 140737488355328 : ℚ) - 2 * M_PI) = (404776525239735 / 70368744177664 : ℚ) := by
    rw [show ((1693832769483025 / 140737488355328 : ℚ) - 2 * M_PI) = (404776525239735 / 70368744177664 : ℚ) by norm_num [M_PI]]
    rw [fl_eq_of_lt (404776525239735 / 70368744177664 : ℚ) 2 6476424403835760 (by norm_num)
      (by rw [abs_of_pos (by norm_num)]; norm_num)
      (by rw [abs_of_pos (by norm_num)]; norm_num)
      (by rw [abs_lt]; constructor <;> norm_num)]
    norm_num
  have s15 : fl ((404776525239735 / 70368744177664 : ℚ) - 2 * M_PI) = (-74726668524085 / 140737488355328 : ℚ) := by
    rw [show ((404776525239735 / 70368744177664 : ℚ) - 2 * M_PI) = (-74726668524085 / 140737488355328 : ℚ) by norm_num [M_PI]]
    rw [fl_eq_of_lt (-74726668524085 / 140737488355328 : ℚ) (-1) (-4782506785541440) (by norm_num)
      (by rw [abs_of_neg (by norm_num)]; norm_num)
      (by rw [abs_of_neg (by norm_num)]; norm_num)
      (by rw [abs_lt]; constructor <;> norm_num)]
    norm_num
  rw [constraintAngle_step_hi (15 + 1) (100 : ℚ) (by norm_num [M_PI]), s0]
  rw [constraintAngle_step_hi (14 + 1) (3297367279132311 / 35184372088832 : ℚ) (by norm_num [M_PI]), s1]
  rw [constraintAngle_step_hi (13 + 1) (1538148674690711 / 17592186044416 : ℚ) (by norm_num [M_PI]), s2]
  rw [constraintAngle_step_hi (12 + 1) (2855227419630533 / 35184372088832 : ℚ) (by norm_num [M_PI]), s3]
  rw [constraintAngle_step_hi (11 + 1) (658539372469911 / 8796093022208 : ℚ) (by norm_num [M_PI]), s4]
  rw [constraintAngle_step_hi (10 + 1) (2413087560128755 / 35184372088832 : ℚ) (by norm_num [M_PI]), s5]
  rw [constraintAngle_step_hi (9 + 1) (8768070521511465 / 140737488355328 : ℚ) (by norm_num [M_PI]), s6]
  rw [constraintAngle_step_hi (8 + 1) (3941895401253955 / 70368744177664 : ℚ) (by norm_num [M_PI]), s7]
  rw [constraintAngle_step_hi (7 + 1) (6999511083504355 / 140737488355328 : ℚ) (by norm_num [M_PI]), s8]
  rw [constraintAngle_step_hi (6 + 1) (95550490070325 / 2199023255552 : ℚ) (by norm_num [M_PI]), s9]
  rw [constraintAngle_step_hi (5 + 1) (5230951645497245 / 140737488355328 : ℚ) (by norm_num [M_PI]), s10]
  rw [constraintAngle_step_hi (4 + 1) (2173335963246845 / 70368744177664 : ℚ) (by norm_num [M_PI]), s11]
  rw [constraintAngle_step_hi (3 + 1) (3462392207490135 / 140737488355328 : ℚ) (by norm_num [M_PI]), s12]
  rw [constraintAngle_step_hi (2 + 1) (644528122121645 / 35184372088832 : ℚ) (by norm_num [M_PI]), s13]
  rw [constraintAngle_step_hi (1 + 1) (1693832769483025 / 140737488355328 : ℚ) (by norm_num [M_PI]), s14]
  rw [constraintAngle_step_hi (0 + 1) (404776525239735 / 70368744177664 : ℚ) (by norm_num [M_PI]), s15]
  exact constraintAngle_of_mem 0 (by norm_num [M_PI]) (by norm_num [M_PI])

/-- The angle that `constraintAngle` returns at `100` is no integer multiple of
`2 * M_PI` away from `100`. -/
theorem constraintAngle_100_not_congruent :
    ¬ ∃ n : ℤ, (-74726668524085 / 140737488355328 : ℚ) = 100 + n * (2 * M_PI) := by
  rintro ⟨n, hn⟩
  have hM : M_PI = 884279719003555 / 281474976710656 := rfl
  rw [hM] at hn
  have h3 : n + 16 ≤ -1 ∨ n + 16 = 0 ∨ 1 ≤ n + 16 := by omega
  rcases h3 with h | h | h
  · have h' : (n : ℚ) + 16 ≤ -1 := by exact_mod_cast h
    linarith
  · have h' : (n : ℚ) + 16 = 0 := by exact_mod_cast h
    linarith
  · have h' : (1 : ℚ) ≤ n + 16 := by exact_mod_cast h
    linarith

/-! ## The stored error terms -/

/-- The vehicle state of lines 126-137 is the old one with the offset of lines 131-135
and the heading error that `constraintAngle` returned. -/
theorem initErrors_ok (env : Env) (fuel : ℕ) (po : PathOptimizer) (vs : VehicleState)
    (h : initErrors env fuel po = .ok vs) :
    ∃ e, initialHeadingError fuel po.vehicle_state_.start_state
        (firstPoint env po.reference_path_) = .ok e ∧
      vs = po.vehicle_state_.setInitError
        (initialOffset env po.vehicle_state_.start_state (firstPoint env po.reference_path_))
        e := by
  unfold initErrors at h
  simp only [] at h
  cases he : initialHeadingError fuel po.vehicle_state_.start_state
      (firstPoint env po.reference_path_) with
  | error e => rw [he] at h; simp at h
  | ok e =>
    rw [he] at h
    simp only [Except.ok.injEq] at h
    exact ⟨e, rfl, h.symm⟩

theorem initErrors_of_heading (env : Env) (fuel : ℕ) (po : PathOptimizer) (e : ℚ)
    (h : initialHeadingError fuel po.vehicle_state_.start_state
      (firstPoint env po.reference_path_) = .ok e) :
    initErrors env fuel po = .ok (po.vehicle_state_.setInitError
      (initialOffset env po.vehicle_state_.start_state (firstPoint env po.reference_path_))
      e) := by
  unfold initErrors
  simp only [h]

/-- When the curve has a length and `segmentSmoothedPath` returns, the vehicle state of
the object is the one of lines 126-137. -/
theorem segmentSmoothedPath_vehicle_state (env : Env) (fuel : ℕ) (po : PathOptimizer)
    (vs : VehicleState) (r : Bool × PathOptimizer)
    (hlen : po.reference_path_.getLength ≠ 0) (hvs : initErrors env fuel po = .ok vs)
    (h : segmentSmoothedPath env fuel po = .ok r) : r.2.vehicle_state_ = vs := by
  unfold segmentSmoothedPath at h
  rw [if_neg hlen] at h
  simp only [hvs] at h
  by_cases hlim : |vs.initial_heading_error| > heading_error_limit
  · rw [if_pos hlim] at h
    injection h with h
    rw [← h]
  · rw [if_neg hlim] at h
    cases ht : trimmedLength env fuel po.reference_path_ vs.end_state with
    | error e => rw [ht] at h; cases h
    | ok len =>
      rw [ht] at h
      injection h with h
      rw [← h]

/-- Claim C4, as the code has it: whatever `constraintAngle` returns at an angle `x` lies
in the closed interval `[-M_PI, M_PI]` (the lower end included); it does return when
`|x| <= 2 ^ 52` and the fuel is at least `|x| / 5 + 1`; the value returned differs
from `x` by an integer multiple of `2 * M_PI` when `x` is a double with
`|x| <= 64`; and the initial heading error that `segmentSmoothedPath` stores lies
in `[-M_PI, M_PI]`. -/
theorem constraintAngle_closed_range (x : ℚ) (fuel : ℕ) :
    (∀ y, constraintAngle fuel x = .ok y → -M_PI ≤ y ∧ y ≤ M_PI) ∧
    (|x| ≤ 2 ^ 52 → |x| / 5 + 1 ≤ fuel → ∃ y, constraintAngle fuel x = .ok y) ∧
    (IsDouble x → |x| ≤ 64 → ∀ y, constraintAngle fuel x = .ok y →
      ∃ n : ℤ, y = x + n * (2 * M_PI)) ∧
    ∀ (env : Env) (po : PathOptimizer) (vs : VehicleState),
      initErrors env fuel po = .ok vs →
      (-M_PI ≤ vs.initial_heading_error ∧ vs.initial_heading_error ≤ M_PI) ∧
      ∀ r, po.reference_path_.getLength ≠ 0 → segmentSmoothedPath env fuel po = .ok r →
        r.2.vehicle_state_ = vs := by
  refine ⟨fun y h => constraintAngle_mem fuel x y h,
    fun hx hf => constraintAngle_returns fuel x hx hf,
    fun hd h64 y h => constraintAngle_exact fuel x y hd h64 h, ?_⟩
  intro env po vs hvs
  obtain ⟨e, he, rfl⟩ := initErrors_ok env fuel po vs hvs
  exact ⟨constraintAngle_mem fuel _ e he,
    fun r hlen hr => segmentSmoothedPath_vehicle_state env fuel po _ r hlen hvs hr⟩

/-- The angle 7 takes one subtraction. -/
theorem constraintAngle_seven : constraintAngle 3 7 = .ok (7 - 2 * M_PI) := by
  have hd : IsDouble ((7 : ℚ) - 2 * M_PI) :=
    isDouble_sub_two_pi 7 ⟨7, 0, by norm_num, by norm_num, by norm_num⟩
      (by rw [abs_of_pos (by norm_num)]; norm_num) (by norm_num [M_PI])
  rw [constraintAngle_step_hi 2 7 (by norm_num [M_PI]), fl_of_isDouble _ hd]
  exact constraintAngle_of_mem 1 (by norm_num [M_PI]) (by norm_num [M_PI])

/-- Claim C4, witness: the angle 7, a double, is brought into range by one exact
subtraction, and the optimizer on the straight curve whose vehicle starts with the
heading 7 stores that value. -/
theorem constraintAngle_closed_range_witness :
    constraintAngle 3 7 = .ok (7 - 2 * M_PI) ∧
    (-M_PI ≤ 7 - 2 * M_PI ∧ 7 - 2 * M_PI ≤ M_PI) ∧
    (∃ n : ℤ, 7 - 2 * M_PI = 7 + n * (2 * M_PI)) ∧
    ∃ vs, initErrors straightEnv 3 (straightOptimizer (pose 0 0 7)) = .ok vs ∧
      -M_PI ≤ vs.initial_heading_error ∧ vs.initial_heading_error ≤ M_PI := by
  have h7 := constraintAngle_seven
  have hd7 : IsDouble (7 : ℚ) := ⟨7, 0, by norm_num, by norm_num, by norm_num⟩
  have hhe : initialHeadingError 3 (straightOptimizer (pose 0 0 7)).vehicle_state_.start_state
      (firstPoint straightEnv (straightOptimizer (pose 0 0 7)).reference_path_)
      = .ok (7 - 2 * M_PI) := by
    unfold initialHeadingError
    have e : (straightOptimizer (pose 0 0 7)).vehicle_state_.start_state.z
        - (firstPoint straightEnv (straightOptimizer (pose 0 0 7)).reference_path_).z = 7 := by
      norm_num [straightOptimizer, pose, firstPoint, straightEnv]
    rw [e, fl_of_isDouble 7 hd7]
    exact h7
  have hvs := initErrors_of_heading straightEnv 3 (straightOptimizer (pose 0 0 7)) _ hhe
  have hall := constraintAngle_closed_range 7 3
  exact ⟨h7, hall.1 _ h7,
    hall.2.2.1 hd7 (by rw [abs_of_pos (by norm_num)]; norm_num) _ h7,
    _, hvs, (hall.2.2.2 straightEnv _ _ hvs).1⟩

/-- Claim C4, counterexample. The angle `-M_PI` is returned as it is, so the result is
not strictly greater than `-M_PI`. At `10 ^ 17` the recursion never returns, whatever
the fuel. At `100` a value is returned that differs from `100` by no integer
multiple of `2 * M_PI`. -/
theorem constraintAngle_not_half_open_total_congruent :
    (constraintAngle 1 (-M_PI) = .ok (-M_PI) ∧ ¬ (-M_PI < -M_PI)) ∧
    (¬ ∃ (fuel : ℕ) (y : ℚ), constraintAngle fuel 100000000000000000 = .ok y) ∧
    (constraintAngle 17 100 = .ok (-74726668524085 / 140737488355328) ∧
      ¬ ∃ n : ℤ, (-74726668524085 / 140737488355328 : ℚ) = 100 + n * (2 * M_PI)) := by
  refine ⟨⟨constraintAngle_of_mem 0 le_rfl (by linarith [M_PI_pos]), lt_irrefl _⟩, ?_,
    constraintAngle_100, constraintAngle_100_not_congruent⟩
  rintro ⟨fuel, y, h⟩
  rw [constraintAngle_1e17_diverges fuel] at h
  cases h

/-- Claim C5, as the code has it: whenever `constraintAngle` returns a value at an angle
`x`, it returns that same value when applied to it; and it does return, and so
does the second application with the same fuel, when `|x| <= 2 ^ 52` and the fuel
is at least `|x| / 5 + 1`. -/
theorem constraintAngle_idempotent (x : ℚ) (fuel : ℕ) :
    (∀ y, constraintAngle fuel x = .ok y →
      ∀ fuel', constraintAngle (fuel' + 1) y = .ok y) ∧
    (|x| ≤ 2 ^ 52 → |x| / 5 + 1 ≤ fuel →
      ∃ y, constraintAngle fuel x = .ok y ∧ constraintAngle fuel y = .ok y) := by
  refine ⟨fun y h fuel' => constraintAngle_fixed fuel fuel' x y h, ?_⟩
  intro hx hf
  obtain ⟨y, hy⟩ := constraintAngle_returns fuel x hx hf
  refine ⟨y, hy, ?_⟩
  cases fuel with
  | zero => simp [constraintAngle] at hy
  | succ f => exact constraintAngle_fixed (f + 1) f x y hy

/-- Claim C5, witness: at the angle 7 both applications return `7 - 2 * M_PI`. -/
theorem constraintAngle_idempotent_witness :
    constraintAngle 3 7 = .ok (7 - 2 * M_PI) ∧
    constraintAngle 3 (7 - 2 * M_PI) = .ok (7 - 2 * M_PI) := by
  obtain ⟨y, h1, h2⟩ := (constraintAngle_idempotent 7 3).2
    (by rw [abs_of_pos (by norm_num)]; norm_num)
    (by rw [abs_of_pos (by norm_num)]; norm_num)
  have e : y = 7 - 2 * M_PI := by
    rw [constraintAngle_seven] at h1
    injection h1 with h1
    exact h1.symm
  rw [e] at h2
  exact ⟨constraintAngle_seven, h2⟩

/-- Claim C5, counterexample: at the angle `10 ^ 17` no fuel makes `constraintAngle`
return, so neither side of the identity has a value there. -/
theorem constraintAngle_undefined_at_1e17 :
    ¬ ∃ (fuel : ℕ) (y : ℚ), constraintAngle fuel 100000000000000000 = .ok y := by
  rintro ⟨fuel, y, h⟩
  rw [constraintAngle_1e17_diverges fuel] at h
  cases h

/-! ## The parts of `segmentSmoothedPath` -/

/-- The square root of the example environments is exact on squares. -/
theorem rat_sqrt_mul_self {q : ℚ} (h : 0 ≤ q) : Rat.sqrt (q * q) = q := by
  rw [Rat.sqrt_eq, abs_of_nonneg h]

/-- After a successful QP solve `optimizePath` is the output step on the solver's path. -/
theorem optimizePath_of_solved (env : Env) (fuel : ℕ) (po : PathOptimizer)
    (final_path optimized : List State) (solver : OsqpSolver)
    (hcreate : env.create po.reference_path_ po.vehicle_state_ po.size_ = some solver)
    (hsolve : solver final_path = (true, optimized)) :
    optimizePath env fuel po final_path = buildOutput env fuel optimized := by
  unfold optimizePath
  rw [hcreate]
  simp only [hsolve, Bool.not_true, Bool.false_eq_true, if_false]

/-- The heading error above the limit: `segmentSmoothedPath` stores the error terms and
returns false. -/
theorem segmentSmoothedPath_abort (env : Env) (fuel : ℕ) (po : PathOptimizer)
    (vs : VehicleState) (hlen : po.reference_path_.getLength ≠ 0)
    (hvs : initErrors env fuel po = .ok vs)
    (hlim : |vs.initial_heading_error| > heading_error_limit) :
    segmentSmoothedPath env fuel po = .ok (false, { po with vehicle_state_ := vs }) := by
  unfold segmentSmoothedPath
  rw [if_neg hlen]
  simp only [hvs]
  rw [if_pos hlim]

/-- The heading error within the limit: `segmentSmoothedPath` trims the curve, hands it
to `buildReferenceFromSpline` with the two steps, and returns true. -/
theorem segmentSmoothedPath_proceed (env : Env) (fuel : ℕ) (po : PathOptimizer)
    (vs : VehicleState) (length : ℚ) (hlen : po.reference_path_.getLength ≠ 0)
    (hvs : initErrors env fuel po = .ok vs)
    (hlim : ¬ |vs.initial_heading_error| > heading_error_limit)
    (htrim : trimmedLength env fuel po.reference_path_ vs.end_state = .ok length) :
    segmentSmoothedPath env fuel po = .ok (true, { po with
      reference_path_ := env.updateLimits (env.updateBounds (env.buildReferenceFromSpline
        (po.reference_path_.setLength length)
        (segmentSteps env vs.initial_heading_error).1
        (segmentSteps env vs.initial_heading_error).2))
      vehicle_state_ := vs
      size_ := env.getSize (env.updateLimits (env.updateBounds
        (env.buildReferenceFromSpline (po.reference_path_.setLength length)
          (segmentSteps env vs.initial_heading_error).1
          (segmentSteps env vs.initial_heading_error).2))) }) := by
  unfold segmentSmoothedPath
  rw [if_neg hlen]
  simp only [hvs]
  rw [if_neg hlim]
  simp only [htrim]

/-- Within the tolerance `0.001` of the goal the length of the curve stays. -/
theorem trimmedLength_of_near (env : Env) (fuel : ℕ) (r : ReferencePath) (goal : State)
    (h : endDistance env r goal ≤ double_0_001) :
    trimmedLength env fuel r goal = .ok r.getLength := by
  unfold trimmedLength
  simp only [if_neg (not_lt.mpr h)]

/-- On the straight curve the goal `(50, 0)` is the end point of the curve. -/
theorem endDistance_straightPath (env : Env) (h : env.sqrt = Rat.sqrt) :
    endDistance env straightPath (pose 50 0 0) = 0 := by
  have h0 : Rat.sqrt 0 = 0 := by simp [Rat.sqrt]
  simp only [endDistance, h, straightPath, pose, ReferencePath.getXS, ReferencePath.getYS,
    ReferencePath.getLength]
  norm_num [h0]

/-- On the straight curve, whose heading is 0, a start heading `z` that is a double in
`[-M_PI, M_PI]` is the initial heading error. -/
theorem initErrors_straight (env : Env) (hh : env.getHeading = fun _ _ _ => 0) (fuel : ℕ)
    (start_state : State) (hd : IsDouble start_state.z)
    (h1 : -M_PI ≤ start_state.z) (h2 : start_state.z ≤ M_PI) :
    initErrors env (fuel + 1) (straightOptimizer start_state)
      = .ok ((straightOptimizer start_state).vehicle_state_.setInitError
          (initialOffset env start_state (firstPoint env straightPath)) start_state.z) := by
  apply initErrors_of_heading
  unfold initialHeadingError
  have e : (straightOptimizer start_state).vehicle_state_.start_state.z
      - (firstPoint env (straightOptimizer start_state).reference_path_).z
      = start_state.z := by
    simp [straightOptimizer, firstPoint, hh]
  rw [e, fl_of_isDouble _ hd]
  exact constraintAngle_of_mem fuel h1 h2

/-! ## Aborted runs -/

/-- Claim C1, as the code has it: when the reference sequence is not empty, smoothing
succeeds, the smoothed curve has a non-zero length, `constraintAngle` returns the
initial heading error `e` (at the rounded difference of the start heading and the
heading of the first reference sample) and `|e|` exceeds the double that
`75 * M_PI / 180` evaluates to, `solve` returns false and the caller's `final_path`
is what it was before the call. -/
theorem solve_heading_error_aborts (env : Env) (fuel : ℕ) (po : PathOptimizer)
    (reference_points final_path : List State) (smoothed : ReferencePath) (e : ℚ)
    (hne : reference_points ≠ [])
    (hsmoothed : (env.smoother reference_points po.vehicle_state_.start_state
      (env.clear po.reference_path_) po.smoothed_path_).2.1 = smoothed)
    (hok : (env.smoother reference_points po.vehicle_state_.start_state
      (env.clear po.reference_path_) po.smoothed_path_).1 = true)
    (hlen : smoothed.getLength ≠ 0)
    (hhe : constraintAngle fuel (fl (po.vehicle_state_.start_state.z
      - env.getHeading smoothed.x_s smoothed.y_s 0)) = .ok e)
    (herr : |e| > heading_error_limit) :
    ∃ po', solve env fuel po reference_points final_path = .ok (false, po', final_path) := by
  have hemp : reference_points.isEmpty = false := by
    cases reference_points with
    | nil => exact absurd rfl hne
    | cons a l => rfl
  subst hsmoothed
  have hseg := segmentSmoothedPath_abort env fuel
    { po with
      reference_path_ := (env.smoother reference_points po.vehicle_state_.start_state
        (env.clear po.reference_path_) po.smoothed_path_).2.1
      smoothed_path_ := (env.smoother reference_points po.vehicle_state_.start_state
        (env.clear po.reference_path_) po.smoothed_path_).2.2.1
      reference_searching_display_ := (env.smoother reference_points
        po.vehicle_state_.start_state (env.clear po.reference_path_)
        po.smoothed_path_).2.2.2 }
    _ hlen (initErrors_of_heading env fuel _ e hhe) herr
  unfold solve
  simp only [hemp, hok, Bool.false_eq_true, if_false, Bool.not_true, hseg, Bool.not_false,
    if_true]
  exact ⟨_, rfl⟩

/-- Claim C1, witness: on the straight curve a vehicle that starts with heading 2 has the
heading error 2, above the limit; `solve` returns false and leaves the caller's
one-state path alone. -/
theorem solve_heading_error_aborts_witness :
    ∃ po', solve straightEnv 1 (straightOptimizer (pose 0 0 2)) [pose 0 0 0] [pose 1 1 1]
      = .ok (false, po', [pose 1 1 1]) :=
  solve_heading_error_aborts straightEnv 1 (straightOptimizer (pose 0 0 2)) [pose 0 0 0]
    [pose 1 1 1] straightPath 2 (by simp) rfl rfl
    (by norm_num [ReferencePath.getLength, straightPath])
    (by
      have e : (straightOptimizer (pose 0 0 2)).vehicle_state_.start_state.z
          - straightEnv.getHeading straightPath.x_s straightPath.y_s 0 = 2 := by
        norm_num [straightOptimizer, pose, straightEnv]
      rw [e, fl_of_isDouble 2 ⟨2, 0, by norm_num, by norm_num, by norm_num⟩]
      exact constraintAngle_of_mem 0 (by norm_num [M_PI]) (by norm_num [M_PI]))
    (by
      rw [abs_of_pos (by norm_num)]
      norm_num [heading_error_limit])

/-- At the start heading `3 * 10 ^ 17` the error terms of lines 126-137 are never stored:
the recursion of line 136 uses up every fuel. -/
theorem initErrors_never_returns_at_3e17 (fuel : ℕ) :
    initErrors straightEnv fuel (straightOptimizer (pose 0 0 300000000000000000))
      = .error Fault.outOfFuel := by
  have hhe : initialHeadingError fuel
      (straightOptimizer (pose 0 0 300000000000000000)).vehicle_state_.start_state
      (firstPoint straightEnv (straightOptimizer (pose 0 0 300000000000000000)).reference_path_)
      = .error Fault.outOfFuel := by
    unfold initialHeadingError
    have e : (straightOptimizer (pose 0 0 300000000000000000)).vehicle_state_.start_state.z
        - (firstPoint straightEnv
            (straightOptimizer (pose 0 0 300000000000000000)).reference_path_).z
        = 300000000000000000 := by
      norm_num [straightOptimizer, pose, firstPoint, straightEnv]
    rw [e, fl_of_isDouble _ ⟨2288818359375, 17, by norm_num, by norm_num, by norm_num⟩]
    exact constraintAngle_3e17_diverges fuel
  unfold initErrors
  simp only [hhe]

/-- At the start heading `3 * 10 ^ 17` the run of `solve` on the straight curve never
returns. -/
theorem solve_never_returns_at_3e17 (fuel : ℕ) (final_path : List State) :
    solve straightEnv fuel (straightOptimizer (pose 0 0 300000000000000000)) [pose 0 0 0]
      final_path = .error Fault.outOfFuel := by
  have hvs := initErrors_never_returns_at_3e17 fuel
  have hseg : segmentSmoothedPath straightEnv fuel
      (straightOptimizer (pose 0 0 300000000000000000)) = .error Fault.outOfFuel := by
    unfold segmentSmoothedPath
    rw [if_neg (by norm_num [straightOptimizer, straightPath, ReferencePath.getLength])]
    simp only [hvs]
  unfold solve
  simp only [List.isEmpty_cons, Bool.false_eq_true, if_false]
  have hsm : straightEnv.smoother [pose 0 0 0]
      (straightOptimizer (pose 0 0 300000000000000000)).vehicle_state_.start_state
      (straightEnv.clear (straightOptimizer (pose 0 0 300000000000000000)).reference_path_)
      (straightOptimizer (pose 0 0 300000000000000000)).smoothed_path_
      = (true, straightPath, [], []) := rfl
  simp only [hsm, Bool.not_true, Bool.false_eq_true, if_false]
  have hpo : ({ (straightOptimizer (pose 0 0 300000000000000000)) with
      reference_path_ := straightPath
      smoothed_path_ := []
      reference_searching_display_ := [] } : PathOptimizer)
      = straightOptimizer (pose 0 0 300000000000000000) := rfl
  rw [hpo, hseg]

/-- Claim C1, counterexample. First, the double `heading_error_limit` exceeds 75 degrees,
both as `75 * M_PI / 180` in exact arithmetic and with an upper bound of pi to 20
decimals in the place of `M_PI`. On the straight curve a vehicle that starts with
that heading has that heading error, above 75 degrees; the test of line 139 fails,
and `solve` runs the optimization, rewrites the caller's path and returns true.
Second, a vehicle that starts with the heading `3 * 10 ^ 17`, which is about
`-2.56` away from a multiple of `2 * M_PI` and so above 75 degrees in magnitude:
the recursion of line 136 never ends, and `solve` returns neither false nor true,
whatever the fuel. -/
theorem solve_proceeds_at_heading_error_limit :
    (75 * M_PI / 180 < heading_error_limit ∧
    75 * (314159265358979323847 / 100000000000000000000) / 180 < heading_error_limit ∧
    constraintAngle 1 (fl (heading_error_limit - 0)) = .ok heading_error_limit ∧
    ∃ po', solve straightEnv 1 (straightOptimizer (pose 0 0 heading_error_limit))
        [pose 0 0 0] [stateAt 1 2 0 5] = .ok (true, po', [stateAt 1 2 0 0])) ∧
    ((|300000000000000000 + (-47746482927568603 : ℤ) * (2 * M_PI)| ≤ M_PI ∧
      heading_error_limit < |300000000000000000 + (-47746482927568603 : ℤ) * (2 * M_PI)|) ∧
    ∀ (fuel : ℕ) (final_path : List State),
      solve straightEnv fuel (straightOptimizer (pose 0 0 300000000000000000)) [pose 0 0 0]
        final_path = .error Fault.outOfFuel) := by
  have hd : IsDouble heading_error_limit :=
    ⟨5895198126690367, -52, by norm_num, by norm_num, by norm_num [heading_error_limit]⟩
  have h1 : -M_PI ≤ heading_error_limit := by norm_num [heading_error_limit, M_PI]
  have h2 : heading_error_limit ≤ M_PI := by norm_num [heading_error_limit, M_PI]
  have hbig : |300000000000000000 + ((-47746482927568603 : ℤ) : ℚ) * (2 * M_PI)|
      = 360870063383665 / 140737488355328 := by
    rw [abs_of_neg (by norm_num [M_PI])]
    norm_num [M_PI]
  refine ⟨⟨by norm_num [heading_error_limit, M_PI], by norm_num [heading_error_limit], ?_, ?_⟩,
    ⟨by rw [hbig]; norm_num [M_PI], by rw [hbig]; norm_num [heading_error_limit]⟩,
    solve_never_returns_at_3e17⟩
  · rw [sub_zero, fl_of_isDouble _ hd]
    exact constraintAngle_of_mem 0 h1 h2
  · have hvs := initErrors_straight straightEnv rfl 0 (pose 0 0 heading_error_limit) hd h1 h2
    have hlim : ¬ |((straightOptimizer (pose 0 0 heading_error_limit)).vehicle_state_.setInitError
        (initialOffset straightEnv (pose 0 0 heading_error_limit)
          (firstPoint straightEnv straightPath))
        (pose 0 0 heading_error_limit).z).initial_heading_error| > heading_error_limit := by
      show ¬ |heading_error_limit| > heading_error_limit
      rw [abs_of_pos (by norm_num [heading_error_limit])]
      exact lt_irrefl _
    have htrim := trimmedLength_of_near straightEnv 1 straightPath (pose 50 0 0)
      (by rw [endDistance_straightPath straightEnv rfl]; norm_num [double_0_001])
    have hseg := segmentSmoothedPath_proceed straightEnv 1
      (straightOptimizer (pose 0 0 heading_error_limit)) _ _
      (by norm_num [straightOptimizer, straightPath, ReferencePath.getLength]) hvs hlim htrim
    have hopt : ∀ po : PathOptimizer, optimizePath straightEnv 1 po [stateAt 1 2 0 5]
        = .ok (true, [stateAt 1 2 0 0]) := by
      intro po
      rw [optimizePath_of_solved straightEnv 1 po _ _ (fun path => (true, path)) rfl rfl]
      simp [buildOutput, straightEnv, rawLoop, stateAt]
    unfold solve
    simp only [List.isEmpty_cons, Bool.false_eq_true, if_false]
    have hsm : straightEnv.smoother [pose 0 0 0]
        (straightOptimizer (pose 0 0 heading_error_limit)).vehicle_state_.start_state
        (straightEnv.clear (straightOptimizer (pose 0 0 heading_error_limit)).reference_path_)
        (straightOptimizer (pose 0 0 heading_error_limit)).smoothed_path_
        = (true, straightPath, [], []) := rfl
    simp only [hsm, Bool.not_true, Bool.false_eq_true, if_false]
    have hpo : ({ (straightOptimizer (pose 0 0 heading_error_limit)) with
        reference_path_ := straightPath
        smoothed_path_ := []
        reference_searching_display_ := [] } : PathOptimizer)
        = straightOptimizer (pose 0 0 heading_error_limit) := rfl
    rw [hpo, hseg]
    simp only [Bool.not_true, Bool.false_eq_true, if_false, hopt]
    exact ⟨_, rfl⟩

/-- Claim C9: for an empty reference sequence `solve` and `solveWithoutSmoothing` return
false, and the caller's `final_path` and the whole object (the stored reference path
and the error terms of the vehicle state among its members) are what they were
before the call. -/
theorem solve_empty_reference (env : Env) (fuel : ℕ) (po : PathOptimizer)
    (final_path : List State) :
    solve env fuel po [] final_path = .ok (false, po, final_path) ∧
    solveWithoutSmoothing env fuel po [] final_path = .ok (false, po, final_path) :=
  ⟨rfl, rfl⟩

/-- Claim C3, the code at the failing input: the solver factory returns no solver, so no
QP solve is made; `optimizePath` still runs the raw output step on the caller's
path (the arc length 5 of its state is overwritten with 0) and returns true, and
so does `solveWithoutSmoothing`. -/
theorem optimizePath_without_solver_returns_true :
    optimizePath noSolverEnv 0 (straightOptimizer (pose 0 0 0))
      [{ x := 1, y := 2, z := 0, k := 0, s := 5 }]
      = .ok (true, [{ x := 1, y := 2, z := 0, k := 0, s := 0 }]) ∧
    ∃ po', solveWithoutSmoothing noSolverEnv 0 (straightOptimizer (pose 0 0 0)) [pose 0 0 0]
      [{ x := 1, y := 2, z := 0, k := 0, s := 5 }]
      = .ok (true, po', [{ x := 1, y := 2, z := 0, k := 0, s := 0 }]) := by
  have h : ∀ po : PathOptimizer, optimizePath noSolverEnv 0 po
      [{ x := 1, y := 2, z := 0, k := 0, s := 5 }]
      = .ok (true, [{ x := 1, y := 2, z := 0, k := 0, s := 0 }]) := by
    intro po
    simp [optimizePath, noSolverEnv, straightEnv, buildOutput, rawLoop]
  refine ⟨h _, ?_⟩
  unfold solveWithoutSmoothing
  simp only [List.isEmpty_cons, Bool.false_eq_true, if_false, h]
  exact ⟨_, rfl⟩

/-- Claim C8, the code at the failing input: raw output at the spacing `0.1` and a start
heading 1/2 (between 20 and 75 degrees). The heading error is 1/2, the segmentation
succeeds, and the steps it hands to `buildReferenceFromSpline` are
`delta_s_smaller = 0.3` and `delta_s_larger = 0.1` (the doubles): the first is the
larger one. -/
theorem segmentSteps_smaller_exceeds_larger :
    initialHeadingError 1 (pose 0 0 (1 / 2)) (firstPoint fineRawEnv straightPath)
      = .ok (1 / 2) ∧
    (∃ po', segmentSmoothedPath fineRawEnv 1 (straightOptimizer (pose 0 0 (1 / 2)))
      = .ok (true, po')) ∧
    segmentSteps fineRawEnv (1 / 2) = (double_0_3, double_0_1) ∧
    (segmentSteps fineRawEnv (1 / 2)).2 < (segmentSteps fineRawEnv (1 / 2)).1 := by
  have hd : IsDouble ((pose 0 0 (1 / 2)).z) :=
    ⟨1, -1, by norm_num, by norm_num, by norm_num [pose]⟩
  have h1 : -M_PI ≤ (pose 0 0 (1 / 2)).z := by norm_num [pose, M_PI]
  have h2 : (pose 0 0 (1 / 2)).z ≤ M_PI := by norm_num [pose, M_PI]
  have he : initialHeadingError 1 (pose 0 0 (1 / 2)) (firstPoint fineRawEnv straightPath)
      = .ok (1 / 2) := by
    have e : (pose 0 0 (1 / 2)).z - (firstPoint fineRawEnv straightPath).z = 1 / 2 := by
      norm_num [pose, firstPoint, fineRawEnv, straightEnv]
    unfold initialHeadingError
    rw [e, fl_of_isDouble (1 / 2) ⟨1, -1, by norm_num, by norm_num, by norm_num⟩]
    exact constraintAngle_of_mem 0 (by norm_num [M_PI]) (by norm_num [M_PI])
  have hs : segmentSteps fineRawEnv (1 / 2) = (double_0_3, double_0_1) := by
    have habs : ¬ (|(1 / 2 : ℚ)| < small_heading_error) := by
      rw [abs_of_pos (by norm_num)]
      norm_num [small_heading_error]
    unfold segmentSteps
    simp only [if_neg habs]
    simp [fineRawEnv, straightEnv]
  refine ⟨he, ?_, hs, ?_⟩
  · have hvs := initErrors_straight fineRawEnv rfl 0 (pose 0 0 (1 / 2)) hd h1 h2
    have hlim : ¬ |((straightOptimizer (pose 0 0 (1 / 2))).vehicle_state_.setInitError
        (initialOffset fineRawEnv (pose 0 0 (1 / 2)) (firstPoint fineRawEnv straightPath))
        (pose 0 0 (1 / 2)).z).initial_heading_error| > heading_error_limit := by
      show ¬ |(1 / 2 : ℚ)| > heading_error_limit
      rw [abs_of_pos (by norm_num)]
      norm_num [heading_error_limit]
    have htrim := trimmedLength_of_near fineRawEnv 1 straightPath (pose 50 0 0)
      (by rw [endDistance_straightPath fineRawEnv rfl]; norm_num [double_0_001])
    exact ⟨_, segmentSmoothedPath_proceed fineRawEnv 1 (straightOptimizer (pose 0 0 (1 / 2)))
      _ _ (by norm_num [straightOptimizer, straightPath, ReferencePath.getLength])
      hvs hlim htrim⟩
  · rw [hs]
    norm_num [double_0_3, double_0_1]

/-! ## The initial lateral offset -/

theorem search_delta_s_pos (env : Env) : 0 < search_delta_s env := by
  have := (search_delta_s_bounds env).1
  linarith

/-- The distance of line 162 at the end of the curve is the distance of lines 144-146. -/
theorem tmpDis_getLength (env : Env) (r : ReferencePath) (goal : State) :
    tmpDis env r goal r.getLength = endDistance env r goal := by
  unfold tmpDis endDistance
  congr 1
  ring

theorem goalSearchLoop_update (env : Env) (r : ReferencePath) (goal : State) (fuel : ℕ)
    (tmp_s min_dis_to_goal min_dis_s : ℚ) (h1 : tmp_s > 0)
    (h2 : tmpDis env r goal tmp_s < min_dis_to_goal) :
    goalSearchLoop env r goal (fuel + 1) tmp_s min_dis_to_goal min_dis_s
      = goalSearchLoop env r goal fuel (fl (tmp_s - search_delta_s env))
          (tmpDis env r goal tmp_s) tmp_s := by
  rw [goalSearchLoop, if_pos h1]
  simp only []
  rw [if_pos h2]

theorem goalSearchLoop_keep (env : Env) (r : ReferencePath) (goal : State) (fuel : ℕ)
    (tmp_s min_dis_to_goal min_dis_s : ℚ) (h1 : tmp_s > 0)
    (h2 : ¬ tmpDis env r goal tmp_s < min_dis_to_goal) :
    goalSearchLoop env r goal (fuel + 1) tmp_s min_dis_to_goal min_dis_s
      = goalSearchLoop env r goal fuel (fl (tmp_s - search_delta_s env))
          min_dis_to_goal min_dis_s := by
  rw [goalSearchLoop, if_pos h1]
  simp only []
  rw [if_neg h2]

theorem goalSearchLoop_exit (env : Env) (r : ReferencePath) (goal : State) (fuel : ℕ)
    (tmp_s min_dis_to_goal min_dis_s : ℚ) (h1 : ¬ tmp_s > 0) :
    goalSearchLoop env r goal (fuel + 1) tmp_s min_dis_to_goal min_dis_s
      = .ok (min_dis_to_goal, min_dis_s) := by
  rw [goalSearchLoop, if_neg h1]

/-- After a position that is not positive no position is positive. -/
theorem searchCandidate_nonpos (env : Env) (L : ℚ) (n : ℕ)
    (h : searchCandidate env L n ≤ 0) : ∀ j, n ≤ j → searchCandidate env L j ≤ 0 := by
  intro j hj
  induction j, hj using Nat.le_induction with
  | base => exact h
  | succ k _ ih =>
    have hd := search_delta_s_pos env
    show fl (searchCandidate env L k - search_delta_s env) ≤ 0
    exact fl_le_of_le _ _ isDouble_zero (by linarith)

/-- One step of the search from a positive position at most `2 ^ 49` goes down by at
least `3 / 100`. -/
theorem fl_sub_delta_le (env : Env) (t : ℚ) (h0 : 0 < t) (h40 : t ≤ 2 ^ 49) :
    fl (t - search_delta_s env) ≤ t - 3 / 100 := by
  obtain ⟨hd1, hd2⟩ := search_delta_s_bounds env
  have habs : |t - search_delta_s env| ≤ 2 ^ (49 : ℤ) := by
    have e : (2 : ℚ) ^ (49 : ℤ) = 2 ^ 49 := by norm_num
    rw [e, abs_le]
    constructor
    · have : (1 : ℚ) ≤ 2 ^ 49 := by norm_num
      linarith
    · linarith
  have herr := fl_error_le (t - search_delta_s env) 49 (by norm_num) habs
  have h2 : (2 : ℚ) ^ ((49 : ℤ) - 53) = 1 / 16 := by norm_num
  rw [h2] at herr
  have := (abs_le.mp herr).2
  linarith

/-- The invariant of the search loop: when `tmp_s` is the position number `n`, all
positions before it are positive and the pair `(min_dis_to_goal, min_dis_s)` is best
among them, the loop ends within the fuel and the pair at its exit is best among all
positive positions. -/
theorem goalSearchLoop_spec (env : Env) (r : ReferencePath) (goal : State) (L : ℚ)
    (hL40 : L ≤ 2 ^ 49) :
    ∀ (f n : ℕ) (m ms : ℚ),
      searchCandidate env L n ≤ 3 / 100 * f →
      searchCandidate env L n ≤ L →
      (∀ i, i < n → 0 < searchCandidate env L i) →
      (∃ k, k < n ∧ ms = searchCandidate env L k) →
      ms ≤ L →
      m = tmpDis env r goal ms →
      (∀ k, k < n → m ≤ tmpDis env r goal (searchCandidate env L k)) →
      ∃ s k, goalSearchLoop env r goal (f + 1) (searchCandidate env L n) m ms
          = .ok (tmpDis env r goal s, s) ∧
        s = searchCandidate env L k ∧ 0 < s ∧ s ≤ L ∧
        ∀ j, 0 < searchCandidate env L j →
          tmpDis env r goal s ≤ tmpDis env r goal (searchCandidate env L j) := by
  intro f
  induction f with
  | zero =>
    intro n m ms hf _ hvis hms hmsL hm hmin
    have ht : ¬ searchCandidate env L n > 0 := by
      push_cast at hf
      intro hc
      linarith
    obtain ⟨k, hk, hkms⟩ := hms
    refine ⟨ms, k, ?_, hkms, ?_, hmsL, ?_⟩
    · rw [goalSearchLoop_exit _ _ _ _ _ _ _ ht, hm]
    · rw [hkms]; exact hvis k hk
    · intro j hj
      rcases lt_or_le j n with hjn | hjn
      · rw [← hm]; exact hmin j hjn
      · exact absurd (searchCandidate_nonpos env L n (not_lt.mp ht) j hjn) (not_le.mpr hj)
  | succ f ih =>
    intro n m ms hf htL hvis hms hmsL hm hmin
    by_cases ht : searchCandidate env L n > 0
    · have hstep := fl_sub_delta_le env _ ht (le_trans htL hL40)
      have hnext : searchCandidate env L (n + 1)
          = fl (searchCandidate env L n - search_delta_s env) := rfl
      have hf' : searchCandidate env L (n + 1) ≤ 3 / 100 * f := by
        rw [hnext]
        push_cast at hf
        linarith
      have htL' : searchCandidate env L (n + 1) ≤ L := by
        rw [hnext]; linarith
      have hvis' : ∀ i, i < n + 1 → 0 < searchCandidate env L i := by
        intro i hi
        rcases Nat.lt_succ_iff_lt_or_eq.mp hi with h | h
        · exact hvis i h
        · rw [h]; exact ht
      by_cases hlt : tmpDis env r goal (searchCandidate env L n) < m
      · rw [goalSearchLoop_update _ _ _ _ _ _ _ ht hlt, ← hnext]
        refine ih (n + 1) _ _ hf' htL' hvis' ⟨n, Nat.lt_succ_self n, rfl⟩ htL rfl ?_
        intro k hk
        rcases Nat.lt_succ_iff_lt_or_eq.mp hk with h | h
        · exact le_trans hlt.le (hmin k h)
        · rw [h]
      · rw [goalSearchLoop_keep _ _ _ _ _ _ _ ht hlt, ← hnext]
        obtain ⟨k0, hk0, hk0e⟩ := hms
        refine ih (n + 1) _ _ hf' htL' hvis' ⟨k0, Nat.lt_succ_of_lt hk0, hk0e⟩ hmsL hm ?_
        intro k hk
        rcases Nat.lt_succ_iff_lt_or_eq.mp hk with h | h
        · exact hmin k h
        · rw [h]; exact not_lt.mp hlt
    · obtain ⟨k, hk, hkms⟩ := hms
      refine ⟨ms, k, ?_, hkms, ?_, hmsL, ?_⟩
      · rw [goalSearchLoop_exit _ _ _ _ _ _ _ ht, hm]
      · rw [hkms]; exact hvis k hk
      · intro j hj
        rcases lt_or_le j n with hjn | hjn
        · rw [← hm]; exact hmin j hjn
        · exact absurd (searchCandidate_nonpos env L n (not_lt.mp ht) j hjn) (not_le.mpr hj)

/-- The search on a curve of length `0 < L <= 2 ^ 49` with fuel at least `34 * L + 2`. -/
theorem trimmedLength_search (env : Env) (fuel : ℕ) (r : ReferencePath) (goal : State)
    (hL : 0 < r.getLength) (hL40 : r.getLength ≤ 2 ^ 49)
    (hfuel : 34 * r.getLength + 2 ≤ fuel)
    (hfar : double_0_001 < endDistance env r goal) :
    ∃ s k, trimmedLength env fuel r goal = .ok s ∧
      s = searchCandidate env r.getLength k ∧ 0 < s ∧ s ≤ r.getLength ∧
      ∀ j, 0 < searchCandidate env r.getLength j →
        tmpDis env r goal s ≤ tmpDis env r goal (searchCandidate env r.getLength j) := by
  obtain ⟨f, rfl⟩ : ∃ f, fuel = f + 1 := by
    cases fuel with
    | zero => exfalso; push_cast at hfuel; linarith
    | succ f => exact ⟨f, rfl⟩
  push_cast at hfuel
  have hstep := fl_sub_delta_le env _ hL hL40
  have h1 : searchCandidate env r.getLength 1 = fl (r.getLength - search_delta_s env) := rfl
  obtain ⟨s, k, hrun, hk, hpos, hle, hmin⟩ := goalSearchLoop_spec env r goal r.getLength hL40
    f 1 (endDistance env r goal) r.getLength
    (by rw [h1]; linarith) (by rw [h1]; linarith)
    (by intro i hi
        have : i = 0 := by omega
        subst this
        exact hL)
    ⟨0, Nat.zero_lt_one, rfl⟩ le_rfl (tmpDis_getLength env r goal).symm
    (by intro k hk
        have : k = 0 := by omega
        subst this
        rw [← tmpDis_getLength]
        exact le_refl _)
  refine ⟨s, k, ?_, hk, hpos, hle, hmin⟩
  unfold trimmedLength
  simp only [if_pos hfar]
  rw [← h1, hrun]

/-- Claim C7, as the code has it: for a reference curve of length `0 < L <= 2 ^ 49` and
fuel at least `34 * L + 2`, `segmentSmoothedPath` gives the curve, before it
re-discretises it, the length `trimmedLength`: `L` itself when the distance from the
goal to the end point of the curve is at most the double `0.001`; otherwise one of
the positions that the search visits (`L`, then every position minus the step,
rounded, while positive; the step is the double `0.1` in exact-goal-position mode
and the double `0.3` otherwise), positive and at most `L`, at which the distance to
the goal is at most the distance at every position visited. -/
theorem trimmedLength_minimises (env : Env) (fuel : ℕ) (po : PathOptimizer)
    (hL : 0 < po.reference_path_.getLength) (hL40 : po.reference_path_.getLength ≤ 2 ^ 49)
    (hfuel : 34 * po.reference_path_.getLength + 2 ≤ fuel) :
    (search_delta_s env = if env.enable_exact_position then double_0_1 else double_0_3) ∧
    (∀ vs length, initErrors env fuel po = .ok vs →
      ¬ |vs.initial_heading_error| > heading_error_limit →
      trimmedLength env fuel po.reference_path_ po.vehicle_state_.end_state = .ok length →
      ∃ po', segmentSmoothedPath env fuel po = .ok (true, po') ∧
        po'.reference_path_ = env.updateLimits (env.updateBounds
          (env.buildReferenceFromSpline (po.reference_path_.setLength length)
            (segmentSteps env vs.initial_heading_error).1
            (segmentSteps env vs.initial_heading_error).2))) ∧
    (endDistance env po.reference_path_ po.vehicle_state_.end_state ≤ double_0_001 →
      trimmedLength env fuel po.reference_path_ po.vehicle_state_.end_state
        = .ok po.reference_path_.getLength) ∧
    (double_0_001 < endDistance env po.reference_path_ po.vehicle_state_.end_state →
      ∃ s k, trimmedLength env fuel po.reference_path_ po.vehicle_state_.end_state = .ok s ∧
        s = searchCandidate env po.reference_path_.getLength k ∧
        0 < s ∧ s ≤ po.reference_path_.getLength ∧
        ∀ j, 0 < searchCandidate env po.reference_path_.getLength j →
          tmpDis env po.reference_path_ po.vehicle_state_.end_state s
            ≤ tmpDis env po.reference_path_ po.vehicle_state_.end_state
              (searchCandidate env po.reference_path_.getLength j)) := by
  refine ⟨rfl, ?_, trimmedLength_of_near env fuel _ _,
    trimmedLength_search env fuel _ _ hL hL40 hfuel⟩
  intro vs length hvs hlim htrim
  obtain ⟨e, _, hvse⟩ := initErrors_ok env fuel po vs hvs
  have hend : vs.end_state = po.vehicle_state_.end_state := by rw [hvse]; rfl
  rw [← hend] at htrim
  exact ⟨_, segmentSmoothedPath_proceed env fuel po vs length (ne_of_gt hL) hvs hlim htrim, rfl⟩

/-- On the curves along the x axis with the goal at the origin, the distance of line 162
at a position is the magnitude of the position. -/
theorem tmpDis_short (t : ℚ) : tmpDis straightEnv shortPath (pose 0 0 0) t = |t| := by
  simp only [tmpDis, straightEnv, shortPath, pose, ReferencePath.getXS, ReferencePath.getYS]
  rw [show (t - 0) ^ 2 + ((0 : ℚ) - 0) ^ 2 = t * t by ring]
  exact Rat.sqrt_eq t

theorem goalSearchLoop_short_step (fuel : ℕ) (t m ms : ℚ) (h1 : 0 < t) (h2 : t < m) :
    goalSearchLoop straightEnv shortPath (pose 0 0 0) (fuel + 1) t m ms
      = goalSearchLoop straightEnv shortPath (pose 0 0 0) fuel (fl (t - double_0_3)) t t := by
  have hd : tmpDis straightEnv shortPath (pose 0 0 0) t = t := by
    rw [tmpDis_short, abs_of_pos h1]
  have hdelta : search_delta_s straightEnv = double_0_3 := by
    simp [search_delta_s, straightEnv]
  rw [goalSearchLoop_update _ _ _ _ _ _ _ h1 (by rw [hd]; exact h2), hd, hdelta]

theorem endDistance_shortPath : endDistance straightEnv shortPath (pose 0 0 0) = 3 := by
  have h9 : Rat.sqrt 9 = 3 := by
    rw [show (9 : ℚ) = 3 * 3 by norm_num]
    exact rat_sqrt_mul_self (by norm_num)
  simp only [endDistance, straightEnv, shortPath, pose, ReferencePath.getXS,
    ReferencePath.getYS, ReferencePath.getLength]
  norm_num [h9]

/-- A far goal makes `trimmedLength` the position that the search loop returns. -/
theorem trimmedLength_of_loop (env : Env) (fuel : ℕ) (r : ReferencePath) (goal : State)
    (m s : ℚ) (hfar : double_0_001 < endDistance env r goal)
    (hrun : goalSearchLoop env r goal fuel (fl (r.getLength - search_delta_s env))
      (endDistance env r goal) r.getLength = .ok (m, s)) :
    trimmedLength env fuel r goal = .ok s := by
  unfold trimmedLength
  simp only [if_pos hfar]
  rw [hrun]

/-- The positions that the search visits on the curve of length 3 with the step `0.3`. -/
theorem goalSearchLoop_short :
    goalSearchLoop straightEnv shortPath (pose 0 0 0) (10 + 1 + 1) (fl (3 - double_0_3)) 3 3
      = .ok (3 / 9007199254740992, 3 / 9007199254740992) := by
  have s0 : fl ((3 : ℚ) - double_0_3) = (3039929748475085 / 1125899906842624 : ℚ) := by
    rw [show ((3 : ℚ) - double_0_3) = (48638875975601357 / 18014398509481984 : ℚ) by norm_num [double_0_3]]
    rw [fl_eq_of_lt (48638875975601357 / 18014398509481984 : ℚ) 1 6079859496950170 (by norm_num)
      (by rw [abs_of_pos (by norm_num)]; norm_num)
      (by rw [abs_of_pos (by norm_num)]; norm_num)
      (by rw [abs_lt]; constructor <;> norm_num)]
    norm_num
  have s1 : fl ((3039929748475085 / 1125899906842624 : ℚ) - double_0_3) = (1351079888211149 / 562949953421312 : ℚ) := by
    rw [show ((3039929748475085 / 1125899906842624 : ℚ) - double_0_3) = (43234556422756765 / 18014398509481984 : ℚ) by norm_num [double_0_3]]
    rw [fl_eq_of_lt (43234556422756765 / 18014398509481984 : ℚ) 1 5404319552844596 (by norm_num)
      (by rw [abs_of_pos (by norm_num)]; norm_num)
      (by rw [abs_of_pos (by norm_num)]; norm_num)
      (by rw [abs_lt]; constructor <;> norm_num)]
    norm_num
  have s2 : fl ((1351079888211149 / 562949953421312 : ℚ) - double_0_3) = (2364389804369511 / 1125899906842624 : ℚ) := by
    rw [show ((1351079888211149 / 562949953421312 : ℚ) - double_0_3) = (37830236869912173 / 18014398509481984 : ℚ) by norm_num [double_0_3]]
    rw [fl_eq_of_lt (37830236869912173 / 18014398509481984 : ℚ) 1 4728779608739022 (by norm_num)
      (by rw [abs_of_pos (by norm_num)]; norm_num)
      (by rw [abs_of_pos (by norm_num)]; norm_num)
      (by rw [abs_lt]; constructor <;> norm_num)]
    norm_num
  have s3 : fl ((2364389804369511 / 1125899906842624 : ℚ) - double_0_3) = (8106479329266895 / 4503599627370496 : ℚ) := by
    rw [show ((2364389804369511 / 1125899906842624 : ℚ) - double_0_3) = (32425917317067581 / 18014398509481984 : ℚ) by norm_num [double_0_3]]
    rw [fl_eq_of_lt (32425917317067581 / 18014398509481984 : ℚ) 0 8106479329266895 (by norm_num)
      (by rw [abs_of_pos (by norm_num)]; norm_num)
      (by rw [abs_of_pos (by norm_num)]; norm_num)
      (by rw [abs_lt]; constructor <;> norm_num)]
    norm_num
  have s4 : fl ((8106479329266895 / 4503599627370496 : ℚ) - double_0_3) = (3377699720527873 / 2251799813685248 : ℚ) := by
    rw [show ((8106479329266895 / 4503599627370496 : ℚ) - double_0_3) = (27021597764222985 / 18014398509481984 : ℚ) by norm_num [double_0_3]]
    rw [fl_eq_of_lt (27021597764222985 / 18014398509481984 : ℚ) 0 6755399441055746 (by norm_num)
      (by rw [abs_of_pos (by norm_num)]; norm_num)
      (by rw [abs_of_pos (by norm_num)]; norm_num)
      (by rw [abs_lt]; constructor <;> norm_num)]
    norm_num
  have s5 : fl ((3377699720527873 / 2251799813685248 : ℚ) - double_0_3) = (5404319552844597 / 4503599627370496 : ℚ) := by
    rw [show ((3377699720527873 / 2251799813685248 : ℚ) - double_0_3) = (21617278211378389 / 18014398509481984 : ℚ) by norm_num [double_0_3]]
    rw [fl_eq_of_lt (21617278211378389 / 18014398509481984 : ℚ) 0 5404319552844597 (by norm_num)
      (by rw [abs_of_pos (by norm_num)]; norm_num)
      (by rw [abs_of_pos (by norm_num)]; norm_num)
      (by rw [abs_lt]; constructor <;> norm_num)]
    norm_num
  have s6 : fl ((5404319552844597 / 4503599627370496 : ℚ) - double_0_3) = (506654958079181 / 562949953421312 : ℚ) := by
    rw [show ((5404319552844597 / 4503599627370496 : ℚ) - double_0_3) = (16212958658533793 / 18014398509481984 : ℚ) by norm_num [double_0_3]]
    rw [fl_eq_of_tie (16212958658533793 / 18014398509481984 : ℚ) (-1) 8106479329266896 (by norm_num)
      (by rw [abs_of_pos (by norm_num)]; norm_num)
      (by rw [abs_of_pos (by norm_num)]; norm_num)
      (by norm_num)]
    norm_num
  have s7 : fl ((506654958079181 / 562949953421312 : ℚ) - double_0_3) = (2702159776422299 / 4503599627370496 : ℚ) := by
    rw [show ((506654958079181 / 562949953421312 : ℚ) - double_0_3) = (10808639105689197 / 18014398509481984 : ℚ) by norm_num [double_0_3]]
    rw [fl_eq_of_tie (10808639105689197 / 18014398509481984 : ℚ) (-1) 5404319552844598 (by norm_num)
      (by rw [abs_of_pos (by norm_num)]; norm_num)
      (by rw [abs_of_pos (by norm_num)]; norm_num)
      (by norm_num)]
    norm_num
  have s8 : fl ((2702159776422299 / 4503599627370496 : ℚ) - double_0_3) = (5404319552844601 / 18014398509481984 : ℚ) := by
    rw [show ((2702159776422299 / 4503599627370496 : ℚ) - double_0_3) = (5404319552844601 / 18014398509481984 : ℚ) by norm_num [double_0_3]]
    rw [fl_eq_of_lt (5404319552844601 / 18014398509481984 : ℚ) (-2) 5404319552844601 (by norm_num)
      (by rw [abs_of_pos (by norm_num)]; norm_num)
      (by rw [abs_of_pos (by norm_num)]; norm_num)
      (by rw [abs_lt]; constructor <;> norm_num)]
    norm_num
  have s9 : fl ((5404319552844601 / 18014398509481984 : ℚ) - double_0_3) = (3 / 9007199254740992 : ℚ) := by
    rw [show ((5404319552844601 / 18014398509481984 : ℚ) - double_0_3) = (3 / 9007199254740992 : ℚ) by norm_num [double_0_3]]
    rw [fl_eq_of_lt (3 / 9007199254740992 : ℚ) (-52) 6755399441055744 (by norm_num)
      (by rw [abs_of_pos (by norm_num)]; norm_num)
      (by rw [abs_of_pos (by norm_num)]; norm_num)
      (by rw [abs_lt]; constructor <;> norm_num)]
    norm_num
  have s10 : fl ((3 / 9007199254740992 : ℚ) - double_0_3) = (-5404319552844589 / 18014398509481984 : ℚ) := by
    rw [show ((3 / 9007199254740992 : ℚ) - double_0_3) = (-5404319552844589 / 18014398509481984 : ℚ) by norm_num [double_0_3]]
    rw [fl_eq_of_lt (-5404319552844589 / 18014398509481984 : ℚ) (-2) (-5404319552844589) (by norm_num)
      (by rw [abs_of_neg (by norm_num)]; norm_num)
      (by rw [abs_of_neg (by norm_num)]; norm_num)
      (by rw [abs_lt]; constructor <;> norm_num)]
    norm_num
  rw [s0]
  rw [goalSearchLoop_short_step (10 + 1) (3039929748475085 / 1125899906842624 : ℚ) (3 : ℚ) (3 : ℚ) (by norm_num) (by norm_num), s1]
  rw [goalSearchLoop_short_step (9 + 1) (1351079888211149 / 562949953421312 : ℚ) (3039929748475085 / 1125899906842624 : ℚ) (3039929748475085 / 1125899906842624 : ℚ) (by norm_num) (by norm_num), s2]
  rw [goalSearchLoop_short_step (8 + 1) (2364389804369511 / 1125899906842624 : ℚ) (1351079888211149 / 562949953421312 : ℚ) (1351079888211149 / 562949953421312 : ℚ) (by norm_num) (by norm_num), s3]
  rw [goalSearchLoop_short_step (7 + 1) (8106479329266895 / 4503599627370496 : ℚ) (2364389804369511 / 1125899906842624 : ℚ) (2364389804369511 / 1125899906842624 : ℚ) (by norm_num) (by norm_num), s4]
  rw [goalSearchLoop_short_step (6 + 1) (3377699720527873 / 2251799813685248 : ℚ) (8106479329266895 / 4503599627370496 : ℚ) (8106479329266895 / 4503599627370496 : ℚ) (by norm_num) (by norm_num), s5]
  rw [goalSearchLoop_short_step (5 + 1) (5404319552844597 / 4503599627370496 : ℚ) (3377699720527873 / 2251799813685248 : ℚ) (3377699720527873 / 2251799813685248 : ℚ) (by norm_num) (by norm_num), s6]
  rw [goalSearchLoop_short_step (4 + 1) (506654958079181 / 562949953421312 : ℚ) (5404319552844597 / 4503599627370496 : ℚ) (5404319552844597 / 4503599627370496 : ℚ) (by norm_num) (by norm_num), s7]
  rw [goalSearchLoop_short_step (3 + 1) (2702159776422299 / 4503599627370496 : ℚ) (506654958079181 / 562949953421312 : ℚ) (506654958079181 / 562949953421312 : ℚ) (by norm_num) (by norm_num), s8]
  rw [goalSearchLoop_short_step (2 + 1) (5404319552844601 / 18014398509481984 : ℚ) (2702159776422299 / 4503599627370496 : ℚ) (2702159776422299 / 4503599627370496 : ℚ) (by norm_num) (by norm_num), s9]
  rw [goalSearchLoop_short_step (1 + 1) (3 / 9007199254740992 : ℚ) (5404319552844601 / 18014398509481984 : ℚ) (5404319552844601 / 18014398509481984 : ℚ) (by norm_num) (by norm_num), s10]
  rw [goalSearchLoop_exit straightEnv shortPath (pose 0 0 0) 1 _ _ _ (by norm_num)]

/-- On the curve of length 3 with the goal at its start, the search visits ten positions
below 3, every one nearer to the goal than the one before; the last one is
`3 / 2 ^ 53`, which becomes the new length. -/
theorem trimmedLength_short :
    trimmedLength straightEnv 12 shortPath (pose 0 0 0) = .ok (3 / 9007199254740992) := by
  have hdelta : search_delta_s straightEnv = double_0_3 := by
    simp [search_delta_s, straightEnv]
  have hlen : shortPath.getLength = 3 := rfl
  apply trimmedLength_of_loop straightEnv 12 shortPath (pose 0 0 0) (3 / 9007199254740992)
  · rw [endDistance_shortPath]; norm_num [double_0_001]
  · rw [endDistance_shortPath, hdelta, hlen]
    exact goalSearchLoop_short

theorem fl_ten_steps : fl (10 * double_0_3) = 3 := by
  rw [show (10 * double_0_3) = (27021597764222975 / 9007199254740992 : ℚ) by
    norm_num [double_0_3]]
  rw [fl_eq_of_lt (27021597764222975 / 9007199254740992 : ℚ) 1 6755399441055744 (by norm_num)
    (by rw [abs_of_pos (by norm_num)]; norm_num)
    (by rw [abs_of_pos (by norm_num)]; norm_num)
    (by rw [abs_lt]; constructor <;> norm_num)]
  norm_num

/-- No multiple of the double `0.3`, rounded and subtracted from 3 with rounding, leaves
`3 / 2 ^ 53`. -/
theorem short_length_not_rounded_multiple :
    ¬ ∃ k : ℕ, (3 / 9007199254740992 : ℚ) = fl (3 - fl (k * double_0_3)) := by
  rintro ⟨k, hk⟩
  have d1 : IsDouble (11 / 4) := ⟨11, -2, by norm_num, by norm_num, by norm_num⟩
  have d2 : IsDouble (13 / 4) := ⟨13, -2, by norm_num, by norm_num, by norm_num⟩
  have d3 : IsDouble (1 / 4) := ⟨1, -2, by norm_num, by norm_num, by norm_num⟩
  have d4 : IsDouble (-(1 / 4)) := isDouble_neg d3
  have h3 : k ≤ 9 ∨ k = 10 ∨ 11 ≤ k := by omega
  rcases h3 with h | h | h
  · have hq : (k : ℚ) ≤ 9 := by exact_mod_cast h
    have h1 : fl (k * double_0_3) ≤ 11 / 4 :=
      fl_le_of_le _ _ d1 (by rw [double_0_3]; linarith)
    have h2 : 1 / 4 ≤ fl (3 - fl (k * double_0_3)) := le_fl_of_le _ _ d3 (by linarith)
    rw [← hk] at h2
    norm_num at h2
  · subst h
    rw [show ((10 : ℕ) : ℚ) = 10 by norm_num, fl_ten_steps, sub_self, fl_zero] at hk
    norm_num at hk
  · have hq : (11 : ℚ) ≤ k := by exact_mod_cast h
    have h1 : 13 / 4 ≤ fl (k * double_0_3) :=
      le_fl_of_le _ _ d2 (by rw [double_0_3]; linarith)
    have h2 : fl (3 - fl (k * double_0_3)) ≤ -(1 / 4) := fl_le_of_le _ _ d4 (by linarith)
    rw [← hk] at h2
    norm_num at h2

/-- Claim C7, witness: on the curve of length 3 with the goal at its start the search
returns one of the positions it visits, positive and at most 3, nearest to the goal
among them; on the curve of length 50 whose end is the goal the length stays 50. -/
theorem trimmedLength_minimises_witness :
    (∃ s k, trimmedLength straightEnv 104 shortPath (pose 0 0 0) = .ok s ∧
      s = searchCandidate straightEnv 3 k ∧ 0 < s ∧ s ≤ 3 ∧
      ∀ j, 0 < searchCandidate straightEnv 3 j →
        tmpDis straightEnv shortPath (pose 0 0 0) s
          ≤ tmpDis straightEnv shortPath (pose 0 0 0) (searchCandidate straightEnv 3 j)) ∧
    trimmedLength straightEnv 1702 straightPath (pose 50 0 0) = .ok 50 := by
  have hs : (0 : ℚ) < shortOptimizer.reference_path_.getLength := by
    show (0 : ℚ) < 3
    norm_num
  have hs40 : shortOptimizer.reference_path_.getLength ≤ 2 ^ 49 := by
    show (3 : ℚ) ≤ 2 ^ 49
    norm_num
  have hsf : 34 * shortOptimizer.reference_path_.getLength + 2 ≤ ((104 : ℕ) : ℚ) := by
    show 34 * (3 : ℚ) + 2 ≤ ((104 : ℕ) : ℚ)
    norm_num
  have hl : (0 : ℚ) < (straightOptimizer (pose 0 0 0)).reference_path_.getLength := by
    show (0 : ℚ) < 50
    norm_num
  have hl40 : (straightOptimizer (pose 0 0 0)).reference_path_.getLength ≤ 2 ^ 49 := by
    show (50 : ℚ) ≤ 2 ^ 49
    norm_num
  have hlf : 34 * (straightOptimizer (pose 0 0 0)).reference_path_.getLength + 2
      ≤ ((1702 : ℕ) : ℚ) := by
    show 34 * (50 : ℚ) + 2 ≤ ((1702 : ℕ) : ℚ)
    norm_num
  refine ⟨(trimmedLength_minimises straightEnv 104 shortOptimizer hs hs40 hsf).2.2.2 ?_,
    (trimmedLength_minimises straightEnv 1702 (straightOptimizer (pose 0 0 0))
      hl hl40 hlf).2.2.1 ?_⟩
  · show double_0_001 < endDistance straightEnv shortPath (pose 0 0 0)
    rw [endDistance_shortPath]
    norm_num [double_0_001]
  · show endDistance straightEnv straightPath (pose 50 0 0) ≤ double_0_001
    rw [endDistance_straightPath straightEnv rfl]
    norm_num [double_0_001]

/-- At `10 ^ 17` the subtraction of the step `0.3` changes nothing. -/
theorem fl_1e17_sub_step : fl (100000000000000000 - double_0_3) = 100000000000000000 := by
  rw [show ((100000000000000000 : ℚ) - double_0_3)
    = (1801439850948198394595680447155405 / 18014398509481984 : ℚ) by norm_num [double_0_3]]
  rw [fl_eq_of_lt (1801439850948198394595680447155405 / 18014398509481984 : ℚ) 56
    6250000000000000 (by norm_num)
    (by rw [abs_of_pos (by norm_num)]; norm_num)
    (by rw [abs_of_pos (by norm_num)]; norm_num)
    (by rw [abs_lt]; constructor <;> norm_num)]
  norm_num

/-- On the straight curve stretched to the length `10 ^ 17`, with the goal at its start,
the search loop stays at the position `10 ^ 17` and uses up every fuel. -/
theorem goalSearchLoop_stuck (fuel : ℕ) :
    goalSearchLoop straightEnv (straightPath.setLength 100000000000000000) (pose 0 0 0) fuel
      100000000000000000 100000000000000000 100000000000000000
      = .error Fault.outOfFuel := by
  have hd : tmpDis straightEnv (straightPath.setLength 100000000000000000) (pose 0 0 0)
      100000000000000000 = 100000000000000000 := by
    simp only [tmpDis, straightEnv, straightPath, ReferencePath.setLength, pose,
      ReferencePath.getXS, ReferencePath.getYS]
    rw [show ((100000000000000000 : ℚ) - 0) ^ 2 + ((0 : ℚ) - 0) ^ 2
      = 100000000000000000 * 100000000000000000 by norm_num]
    exact rat_sqrt_mul_self (by norm_num)
  have hdelta : search_delta_s straightEnv = double_0_3 := by
    simp [search_delta_s, straightEnv]
  induction fuel with
  | zero => rfl
  | succ f ih =>
    rw [goalSearchLoop_keep _ _ _ _ _ _ _ (by norm_num) (by rw [hd]; exact lt_irrefl _),
      hdelta, fl_1e17_sub_step]
    exact ih

theorem trimmedLength_stuck (fuel : ℕ) :
    trimmedLength straightEnv fuel (straightPath.setLength 100000000000000000) (pose 0 0 0)
      = .error Fault.outOfFuel := by
  have hend : endDistance straightEnv (straightPath.setLength 100000000000000000)
      (pose 0 0 0) = 100000000000000000 := by
    simp only [endDistance, straightEnv, straightPath, ReferencePath.setLength, pose,
      ReferencePath.getXS, ReferencePath.getYS, ReferencePath.getLength]
    rw [show ((0 : ℚ) - 100000000000000000) ^ 2 + ((0 : ℚ) - 0) ^ 2
      = 100000000000000000 * 100000000000000000 by norm_num]
    exact rat_sqrt_mul_self (by norm_num)
  have hdelta : search_delta_s straightEnv = double_0_3 := by
    simp [search_delta_s, straightEnv]
  have hlen : (straightPath.setLength 100000000000000000).getLength
      = 100000000000000000 := rfl
  unfold trimmedLength
  rw [hend, hdelta, hlen, if_pos (by norm_num [double_0_001]), fl_1e17_sub_step,
    goalSearchLoop_stuck]

/-- Claim C7, counterexample. First, on the straight curve of length 3 with the goal at
its start and the step `0.3`, `segmentSmoothedPath` gives the curve the length
`3 / 2 ^ 53` (about `3.3e-16`). That length is not `3 - k * step` for any `k`,
whether the step is the decimal `3 / 10` or the double `0.3`, nor the rounded
difference of 3 and a rounded multiple of the double `0.3`: it is the result of
ten successive rounded subtractions. Second, on the straight curve of length
`10 ^ 17` the subtraction of the step changes nothing: the search loop never
ends, so no length is returned. -/
theorem trimmedLength_not_a_multiple_of_step :
    trimmedLength straightEnv 12 shortPath (pose 0 0 0) = .ok (3 / 9007199254740992) ∧
    (∃ po', segmentSmoothedPath straightEnv 12 shortOptimizer = .ok (true, po') ∧
      po'.reference_path_.getLength = 3 / 9007199254740992) ∧
    search_delta_s straightEnv = double_0_3 ∧
    (¬ ∃ k : ℕ, (3 / 9007199254740992 : ℚ) = 3 - k * (3 / 10)) ∧
    (¬ ∃ k : ℕ, (3 / 9007199254740992 : ℚ) = 3 - k * double_0_3) ∧
    (¬ ∃ k : ℕ, (3 / 9007199254740992 : ℚ) = fl (3 - fl (k * double_0_3))) ∧
    ∀ fuel : ℕ, trimmedLength straightEnv fuel (straightPath.setLength 100000000000000000)
      (pose 0 0 0) = .error Fault.outOfFuel := by
  refine ⟨trimmedLength_short, ?_, by simp [search_delta_s, straightEnv], ?_, ?_,
    short_length_not_rounded_multiple, trimmedLength_stuck⟩
  · have hinit : initErrors straightEnv 12 shortOptimizer
        = .ok (shortOptimizer.vehicle_state_.setInitError
            (initialOffset straightEnv (pose 0 0 0) (firstPoint straightEnv shortPath)) 0) := by
      apply initErrors_of_heading
      show constraintAngle 12 (fl ((0 : ℚ) - 0)) = .ok 0
      rw [sub_self, fl_zero]
      exact constraintAngle_of_mem 11 (by have := M_PI_pos; linarith) M_PI_pos.le
    refine ⟨_, segmentSmoothedPath_proceed straightEnv 12 shortOptimizer _
      (3 / 9007199254740992) (by show (3 : ℚ) ≠ 0; norm_num) hinit ?_ trimmedLength_short, rfl⟩
    show ¬ |(0 : ℚ)| > heading_error_limit
    norm_num [heading_error_limit]
  · rintro ⟨k, hk⟩
    have h3 : k ≤ 9 ∨ 10 ≤ k := by omega
    rcases h3 with h | h
    · have hq : (k : ℚ) ≤ 9 := by exact_mod_cast h
      linarith
    · have hq : (10 : ℚ) ≤ k := by exact_mod_cast h
      linarith
  · rintro ⟨k, hk⟩
    have h3 : k ≤ 9 ∨ k = 10 ∨ 11 ≤ k := by omega
    rcases h3 with h | h | h
    · have hq : (k : ℚ) ≤ 9 := by exact_mod_cast h
      norm_num [double_0_3] at hk
      linarith
    · subst h
      norm_num [double_0_3] at hk
    · have hq : (11 : ℚ) ≤ k := by exact_mod_cast h
      norm_num [double_0_3] at hk
      linarith

/-! ## The raw output mode -/

/-- When the very first state collides, the raw loop reads `back()` of an empty path. -/
theorem rawLoop_start_first_collides (env : Env) (p : State) (rest : List State)
    (hcol : collides env { p with s := 0 } = true) :
    rawLoop env [] 0 (p :: rest) = .error Fault.backOfEmpty := by
  have hp : (env.enable_collision_check &&
      !env.isSingleStateCollisionFreeImproved { p with s := 0 }) = true := hcol
  simp only [rawLoop, List.getLast?_nil, hp, if_true]

/-! ## The arc lengths of the raw output -/

/-- When the very first resampled state collides, the densification loop reads `back()`
of an empty path. -/
theorem densifyLoop_first_collides (env : Env) (x_s y_s : ℚ → ℚ) (back delta_s : ℚ)
    (fuel : ℕ) (hback : 0 ≤ back)
    (hcol : collides env (densifiedState env x_s y_s delta_s 0) = true) :
    densifyLoop env x_s y_s back delta_s (fuel + 1) 0 [] = .error Fault.backOfEmpty := by
  have hc : (env.enable_collision_check &&
      !env.isSingleStateCollisionFreeImproved (densifiedState env x_s y_s delta_s 0))
      = true := hcol
  have h0 : ((0 : ℕ) : ℚ) * delta_s ≤ back := by simpa using hback
  simp only [densifyLoop, if_pos h0, hc, if_true, List.getLast?_nil]

/-- Claim C11, the code where the claim fails: with collision checking enabled and a
successful QP solve, in both output modes, when the very first output state `c` is
reported as colliding (and, in densified mode, the loop is given at least one
iteration), the retained path is empty at the moment `final_path->back()` is read
for the comparison with 20: `optimizePath` ends in the read of `back()` of an empty
vector and returns no Boolean. -/
theorem optimizePath_first_state_collides (env : Env) (fuel : ℕ) (po : PathOptimizer)
    (final_path optimized : List State) (c : State) (solver : OsqpSolver)
    (hcheck : env.enable_collision_check = true)
    (hcreate : env.create po.reference_path_ po.vehicle_state_ po.size_ = some solver)
    (hsolve : solver final_path = (true, optimized))
    (hfirst : IsOutputPrefix env optimized [c])
    (hcol : env.isSingleStateCollisionFreeImproved c = false)
    (hfuel : env.enable_raw_output = false → 0 < fuel) :
    optimizePath env fuel po final_path = .error Fault.backOfEmpty := by
  have hcol' : collides env c = true := by
    simp [collides, hcheck, hcol]
  rw [optimizePath_of_solved env fuel po final_path optimized solver hcreate hsolve]
  unfold IsOutputPrefix at hfirst
  unfold buildOutput
  by_cases hraw : env.enable_raw_output = true
  · rw [if_pos hraw] at hfirst ⊢
    obtain ⟨post, hpost⟩ := hfirst
    cases optimized with
    | nil => simp [withArcLength] at hpost
    | cons p rest =>
      simp only [withArcLength, List.singleton_append, List.cons.injEq] at hpost
      exact rawLoop_start_first_collides env p rest (by rw [← hpost.1]; exact hcol')
  · rw [if_neg hraw] at hfirst ⊢
    obtain ⟨back, hback, hreach, hmap⟩ := hfirst
    obtain ⟨f, hf⟩ : ∃ f, fuel = f + 1 :=
      ⟨fuel - 1, by have := hfuel (by simpa using hraw); omega⟩
    have h0 : 0 ≤ back := by
      have := hreach 0 (by simp)
      simpa using this
    have hc : c = densifiedState env
        (env.spline (optimized.map (fun p => p.s)) (optimized.map (fun p => p.x)))
        (env.spline (optimized.map (fun p => p.s)) (optimized.map (fun p => p.y)))
        env.output_spacing 0 := by
      simpa [List.range_succ] using hmap
    simp only [hback]
    rw [hf]
    exact densifyLoop_first_collides env _ _ back _ f h0 (by rw [← hc]; exact hcol')

/-- Claim C11, witness. Raw mode: the checker reports a collision from `x = 25` on and the
first sample lies at `x = 30`. Densified mode at the spacing 10 with a checker that
reports a collision everywhere: the first resampled state, at the arc length 0,
collides. Both runs read `back()` of an empty path. -/
theorem optimizePath_first_state_collides_witness :
    optimizePath wallRawEnv 0 (straightOptimizer (pose 0 0 0)) [pose 30 0 0, pose 40 0 0]
      = .error Fault.backOfEmpty ∧
    optimizePath blockedDenseEnv 1 (straightOptimizer (pose 0 0 0))
        [pose 0 0 0, stateAt 40 0 0 40]
      = .error Fault.backOfEmpty := by
  have hrawW : wallRawEnv.enable_raw_output = true := rfl
  have hrawB : ¬ (blockedDenseEnv.enable_raw_output = true) := by simp [blockedDenseEnv]
  constructor
  · exact optimizePath_first_state_collides wallRawEnv 0 (straightOptimizer (pose 0 0 0))
      [pose 30 0 0, pose 40 0 0] [pose 30 0 0, pose 40 0 0] (stateAt 30 0 0 0)
      (fun path => (true, path)) rfl rfl rfl
      (by
        unfold IsOutputPrefix
        rw [if_pos hrawW]
        exact ⟨_, rfl⟩)
      (by norm_num [wallRawEnv, stateAt])
      (fun h => absurd hrawW (by simp [h]))
  · exact optimizePath_first_state_collides blockedDenseEnv 1 (straightOptimizer (pose 0 0 0))
      [pose 0 0 0, stateAt 40 0 0 40] [pose 0 0 0, stateAt 40 0 0 40] (stateAt 0 0 0 0)
      (fun path => (true, path)) rfl rfl rfl
      (by
        unfold IsOutputPrefix
        rw [if_neg hrawB]
        refine ⟨40, by simp [stateAt], ?_, ?_⟩
        · intro i hi
          simp only [List.length_singleton, Nat.lt_one_iff] at hi
          subst hi
          norm_num
        · simp [List.range_succ, densifiedState, blockedDenseEnv, straightEnv, stateAt])
      rfl (fun _ => Nat.one_pos)

end PathOptimizationNS
